import Mathlib

/-!
DifferentialDriveController: calibration state machine and command mapper

Shallow embedding of `src/main.cpp`.  Unsigned 16/32-bit quantities are `Nat`
(with explicit wrap-around where the source can overflow), signed ones are
`Int`.  The single-precision arithmetic of `map_raw_to_scaled` is modelled by
`F32` below: sign, and magnitude as an exact fraction `num / den`, every
operation rounding to the nearest value with a 24-bit significand, ties to
even.
-/

namespace DDC

/-! ## Binary32 arithmetic -/

/-- A finite binary32 value: sign bit and magnitude `num / den`. -/
structure F32 where
  neg : Bool
  num : Nat
  den : Nat
  deriving DecidableEq, Repr

/-- Fuelled worker of `ilog2`. -/
def ilog2_aux : Nat → Nat → Nat
  | 0, _ => 0
  | fuel + 1, n => if n < 2 then 0 else ilog2_aux fuel (n / 2) + 1

/-- Position of the leading one bit: `floor (log2 n)` for `n > 0`. -/
def ilog2 (n : Nat) : Nat := ilog2_aux n n

/-- The integer nearest to `a / b`, ties to the even one. -/
def round_half_even (a b : Nat) : Nat :=
  let q := a / b
  let r := a % b
  if b < 2 * r then q + 1 else if 2 * r = b then q + q % 2 else q

/-- Magnitude `a / b` (with `b > 0`) rounded to the nearest magnitude with a
24-bit significand, ties to even.  The exponent range is not bounded: every
value that 16-bit operands can produce lies in the normal range of binary32. -/
def f32_round (a b : Nat) : Nat × Nat :=
  if a = 0 then (0, 1) else
  let la := ilog2 a
  let lb := ilog2 b
  -- floor (log2 (a / b)) is la - lb - c
  let c := if b * 2 ^ la ≤ a * 2 ^ lb then 0 else 1
  if la ≤ 23 + lb + c then
    -- the unit in the last place is 2 ^ (-k)
    let k := 23 + lb + c - la
    (round_half_even (a * 2 ^ k) b, 2 ^ k)
  else
    -- the unit in the last place is 2 ^ k
    let k := la - (23 + lb + c)
    (round_half_even a (b * 2 ^ k) * 2 ^ k, 1)

/-- Conversion `static_cast<float>(i)` of an integer. -/
def f32_of_int (i : Int) : F32 :=
  let m := f32_round i.natAbs 1
  ⟨decide (i < 0), m.1, m.2⟩

/-- Division `x / y`; `none` when the divisor is zero (the quotient is then
an infinity or a NaN, whose conversion to an integer is undefined). -/
def f32_div (x y : F32) : Option F32 :=
  if y.num = 0 then none
  else
    let m := f32_round (x.num * y.den) (x.den * y.num)
    some ⟨xor x.neg y.neg, m.1, m.2⟩

/-- Multiplication `x * y`. -/
def f32_mul (x y : F32) : F32 :=
  let m := f32_round (x.num * y.num) (x.den * y.den)
  ⟨xor x.neg y.neg, m.1, m.2⟩

/-- Conversion `static_cast<int32_t>(x)`: truncation toward zero.  For 16-bit
operands of `map_raw_to_scaled` the magnitude stays below `2 ^ 31`. -/
def f32_to_int32 (x : F32) : Int :=
  if x.neg then -((x.num / x.den : Nat) : Int) else ((x.num / x.den : Nat) : Int)

/-! ## Data model -/

inductive ControlMode where
  | Calibration
  | Control
  deriving DecidableEq, Repr

inductive CalibrationPhase where
  | FullRange
  | ZeroCenter
  deriving DecidableEq, Repr

/-- Per-axis calibration record; `min`, `max`, `center` are `uint16_t`. -/
structure StickCalibration where
  min : Nat
  max : Nat
  center : Nat
  ready : Bool
  deriving DecidableEq, Repr

/-- Zero-center accumulator; `min`, `max` are `uint16_t`, `sum`, `count` are
`uint32_t`. -/
structure ZeroCenterState where
  min : Nat
  max : Nat
  sum : Nat
  count : Nat
  deriving DecidableEq, Repr

def UINT16_MAX : Nat := 65535
def kRawResolution : Nat := 4096
def kNormalScale : Int := 1000
def kBoostScale : Int := 2000
def kDeadzone : Int := 40
def kCalibRangeThreshold : Nat := (kRawResolution * 3) / 4
def kZeroCenterRangeLimit : Nat := 30
def kCalibrationHoldMs : Nat := 500

/-- Conversion `static_cast<int16_t>(v)` of an `int32_t`: wrap modulo `2 ^ 16`. -/
def to_int16 (v : Int) : Int := (v + 32768) % 65536 - 32768

/-- Conversion `static_cast<uint16_t>(v)` of a `uint32_t`. -/
def to_uint16 (v : Nat) : Nat := v % 65536

/-- Subtraction of two `uint32_t` values, modulo `2 ^ 32`. -/
def u32_sub (a b : Nat) : Nat := (a % 4294967296 + (4294967296 - b % 4294967296)) % 4294967296

/-! ## Command mapper -/

def apply_deadzone (value deadzone : Int) : Int :=
  if value > -deadzone ∧ value < deadzone then 0 else value

/-- The clamp and dead-zone tail of `map_raw_to_scaled` (source lines 192-197),
applied to `value` as it stands before the final negation. -/
def map_finish (value scale : Int) : Int :=
  let value := -value
  let value := if value > scale then scale else value
  let value := if value < -scale then -scale else value
  apply_deadzone (to_int16 value) kDeadzone

/-- Source `map_raw_to_scaled`.  The result is `none` exactly when the
function would evaluate a division by zero. -/
def map_raw_to_scaled (raw : Nat) (cal : StickCalibration) (scale : Int) : Option Int :=
  if !cal.ready then some 0 else
  let center : Int := cal.center
  if (raw : Int) ≥ center then
    let denom : Int := (cal.max : Int) - center
    if denom ≤ 0 then some 0 else
    match f32_div (f32_of_int ((raw : Int) - center)) (f32_of_int denom) with
    | none => none
    | some ratio =>
      let value := f32_to_int32 (f32_mul ratio (f32_of_int scale))
      some (map_finish value scale)
  else
    let denom : Int := center - (cal.min : Int)
    if denom ≤ 0 then some 0 else
    match f32_div (f32_of_int (center - (raw : Int))) (f32_of_int denom) with
    | none => none
    | some ratio =>
      let value := -f32_to_int32 (f32_mul ratio (f32_of_int scale))
      some (map_finish value scale)

/-! ## Calibration helpers -/

def update_calibration (cal : StickCalibration) (raw : Nat) : StickCalibration :=
  let cal := if raw < cal.min then { cal with min := raw } else cal
  if raw > cal.max then { cal with max := raw } else cal

def calibration_range_ok (cal : StickCalibration) : Bool :=
  decide (cal.max > cal.min) &&
    decide ((cal.max : Int) - (cal.min : Int) ≥ (kCalibRangeThreshold : Int))

def finalize_calibration (cal : StickCalibration) (center : Nat) : StickCalibration :=
  { cal with center := center, ready := true }

def reset_calibration (_cal : StickCalibration) : StickCalibration :=
  { min := UINT16_MAX, max := 0, center := kRawResolution / 2, ready := false }

def reset_zero_center_state (_state : ZeroCenterState) : ZeroCenterState :=
  { min := UINT16_MAX, max := 0, sum := 0, count := 0 }

def seed_zero_center_state (_state : ZeroCenterState) (raw : Nat) : ZeroCenterState :=
  { min := raw, max := raw, sum := raw, count := 1 }

def update_zero_center_state (state : ZeroCenterState) (raw : Nat) : ZeroCenterState :=
  if state.count = 0 then seed_zero_center_state state raw
  else
    let state := if raw < state.min then { state with min := raw } else state
    let state := if raw > state.max then { state with max := raw } else state
    { state with sum := (state.sum + raw) % 4294967296,
                 count := (state.count + 1) % 4294967296 }

def zero_center_range_ok (state : ZeroCenterState) : Bool :=
  if state.count = 0 then false
  else decide ((state.max : Int) - (state.min : Int) < (kZeroCenterRangeLimit : Int))

def zero_center_average (state : ZeroCenterState) : Nat :=
  if state.count = 0 then kRawResolution / 2
  else to_uint16 (state.sum / state.count)

/-! ## Process-wide state and the sample loop -/

/-- The globals of `main.cpp` that the calibration machine and the mapper
read or write. -/
structure CoreState where
  control_mode : ControlMode
  calibration_phase : CalibrationPhase
  left_calibration : StickCalibration
  right_calibration : StickCalibration
  left_zero_center : ZeroCenterState
  right_zero_center : ZeroCenterState
  calibration_complete_at_ms : Nat
  zero_center_stable_at_ms : Nat
  deriving DecidableEq, Repr

/-- What one pass of `loop` reads from its collaborators: the two raw samples
(`uint16_t`), `M5.Btn.wasPressed()`, the value `millis()` returns when the
phase logic reads the clock (`uint32_t`), and the two boost buttons. -/
structure TickInput where
  left_raw : Nat
  right_raw : Nat
  btn_pressed : Bool
  now_ms : Nat
  option_button : Bool
  mode_button : Bool
  deriving DecidableEq, Repr

/-- The static initialisers of the globals (source lines 80-87). -/
def initial_globals : CoreState :=
  { control_mode := ControlMode.Calibration
    calibration_phase := CalibrationPhase.FullRange
    left_calibration := ⟨UINT16_MAX, 0, kRawResolution / 2, false⟩
    right_calibration := ⟨UINT16_MAX, 0, kRawResolution / 2, false⟩
    left_zero_center := ⟨UINT16_MAX, 0, 0, 0⟩
    right_zero_center := ⟨UINT16_MAX, 0, 0, 0⟩
    calibration_complete_at_ms := 0
    zero_center_stable_at_ms := 0 }

def enter_calibration_mode (s : CoreState) : CoreState :=
  { control_mode := ControlMode.Calibration
    calibration_phase := CalibrationPhase.FullRange
    calibration_complete_at_ms := 0
    zero_center_stable_at_ms := 0
    left_calibration := reset_calibration s.left_calibration
    right_calibration := reset_calibration s.right_calibration
    left_zero_center := reset_zero_center_state s.left_zero_center
    right_zero_center := reset_zero_center_state s.right_zero_center }

/-- One pass of `loop` after the tick flag has been seen: the new globals and
the pair of commands written to the serial line (`none` in calibration mode). -/
def loop (s0 : CoreState) (inp : TickInput) : CoreState × Option (Option Int × Option Int) :=
  let s := if inp.btn_pressed then enter_calibration_mode s0 else s0
  if s.control_mode = ControlMode.Calibration then
    if s.calibration_phase = CalibrationPhase.FullRange then
      let s := { s with
        left_calibration := update_calibration s.left_calibration inp.left_raw
        right_calibration := update_calibration s.right_calibration inp.right_raw }
      let range_ok :=
        calibration_range_ok s.left_calibration && calibration_range_ok s.right_calibration
      if range_ok then
        if s.calibration_complete_at_ms = 0 then
          ({ s with calibration_complete_at_ms := inp.now_ms }, none)
        else if u32_sub inp.now_ms s.calibration_complete_at_ms ≥ kCalibrationHoldMs then
          ({ s with
              calibration_phase := CalibrationPhase.ZeroCenter
              calibration_complete_at_ms := 0
              zero_center_stable_at_ms := 0
              left_zero_center := reset_zero_center_state s.left_zero_center
              right_zero_center := reset_zero_center_state s.right_zero_center }, none)
        else (s, none)
      else ({ s with calibration_complete_at_ms := 0 }, none)
    else
      let s := { s with
        left_zero_center := update_zero_center_state s.left_zero_center inp.left_raw
        right_zero_center := update_zero_center_state s.right_zero_center inp.right_raw }
      let left_stable := zero_center_range_ok s.left_zero_center
      let right_stable := zero_center_range_ok s.right_zero_center
      let stable := left_stable && right_stable
      if stable then
        if s.zero_center_stable_at_ms = 0 then
          ({ s with zero_center_stable_at_ms := inp.now_ms }, none)
        else if u32_sub inp.now_ms s.zero_center_stable_at_ms ≥ kCalibrationHoldMs then
          ({ s with
              left_calibration :=
                finalize_calibration s.left_calibration (zero_center_average s.left_zero_center)
              right_calibration :=
                finalize_calibration s.right_calibration (zero_center_average s.right_zero_center)
              control_mode := ControlMode.Control
              calibration_phase := CalibrationPhase.FullRange
              zero_center_stable_at_ms := 0 }, none)
        else (s, none)
      else
        ({ s with
            zero_center_stable_at_ms := 0
            left_zero_center := seed_zero_center_state s.left_zero_center inp.left_raw
            right_zero_center := seed_zero_center_state s.right_zero_center inp.right_raw }, none)
  else
    let left_scale := if inp.option_button then kBoostScale else kNormalScale
    let right_scale := if inp.mode_button then kBoostScale else kNormalScale
    let left_cmd := map_raw_to_scaled inp.left_raw s.left_calibration left_scale
    let right_cmd := map_raw_to_scaled inp.right_raw s.right_calibration right_scale
    (s, some (left_cmd, right_cmd))

/-- The globals after `setup` and then one `loop` pass per element of `inputs`. -/
def run (s : CoreState) (inputs : List TickInput) : CoreState :=
  inputs.foldl (fun st inp => (loop st inp).1) s

/-- The clock readings of consecutive ticks never decrease. -/
def clock_monotone : List TickInput → Bool
  | a :: b :: rest => decide (a.now_ms ≤ b.now_ms) && clock_monotone (b :: rest)
  | _ => true

/-- Raw samples lie in `[0, 4095]` and the clock never runs backwards. -/
def inputs_valid (inputs : List TickInput) : Prop :=
  (∀ inp ∈ inputs, inp.left_raw ≤ 4095 ∧ inp.right_raw ≤ 4095) ∧
    clock_monotone inputs = true

/-- The `StickCalibration` invariant of the data model, as the specification
words it. -/
def calibration_invariant (cal : StickCalibration) : Prop :=
  cal.ready = true → cal.max > cal.min ∧ cal.min ≤ cal.center ∧ cal.center ≤ cal.max

instance (cal : StickCalibration) : Decidable (calibration_invariant cal) := by
  unfold calibration_invariant; infer_instance

instance (inputs : List TickInput) : Decidable (inputs_valid inputs) := by
  unfold inputs_valid; infer_instance

/-- Accumulator bound used by the reachability invariant: `count` is a
`uint32_t`, and a non-empty window of samples in `[0, 4095]` has
`sum <= 4095 * count` (also after `sum` has wrapped). -/
def acc_ok (z : ZeroCenterState) : Prop :=
  z.count < 4294967296 ∧ (z.count = 0 ∨ z.sum ≤ 4095 * z.count)

/-- Inductive invariant of the sample loop. -/
def core_inv (s : CoreState) : Prop :=
  (s.control_mode = ControlMode.Calibration →
    s.left_calibration.ready = false ∧ s.right_calibration.ready = false) ∧
  (s.control_mode = ControlMode.Control →
    s.left_calibration.ready = true ∧ s.right_calibration.ready = true) ∧
  ((s.control_mode = ControlMode.Control ∨
      s.calibration_phase = CalibrationPhase.ZeroCenter) →
    calibration_range_ok s.left_calibration = true ∧
      calibration_range_ok s.right_calibration = true) ∧
  s.left_calibration.center ≤ 4095 ∧ s.right_calibration.center ≤ 4095 ∧
  acc_ok s.left_zero_center ∧ acc_ok s.right_zero_center

/-- A tick with no button held. -/
def tick_of (l r now : Nat) : TickInput := ⟨l, r, false, now, false, false⟩


/-- A state in control mode, calibrated on both axes. -/
def calibrated_control_state : CoreState :=
  { control_mode := ControlMode.Control
    calibration_phase := CalibrationPhase.FullRange
    left_calibration := ⟨0, 4095, 2048, true⟩
    right_calibration := ⟨0, 4095, 2048, true⟩
    left_zero_center := ⟨2048, 2048, 104448, 51⟩
    right_zero_center := ⟨2048, 2048, 104448, 51⟩
    calibration_complete_at_ms := 0
    zero_center_stable_at_ms := 0 }

/-- No tick of `inputs` carries the recalibrate button edge. -/
def no_trigger (inputs : List TickInput) : Prop :=
  ∀ inp ∈ inputs, inp.btn_pressed = false

instance (inputs : List TickInput) : Decidable (no_trigger inputs) := by
  unfold no_trigger; infer_instance

/-- The states the machine can be in: those reached from the state `setup`
leaves (`enter_calibration_mode` on the static initialisers) by any sequence
of ticks. -/
def reachable (s : CoreState) : Prop :=
  ∃ inputs : List TickInput, run (enter_calibration_mode initial_globals) inputs = s

/-- Invariant of the sample loop that needs no assumption on the inputs:
readiness follows the mode, and a running range hold timer means that both
ranges are wide enough. -/
def mode_inv (s : CoreState) : Prop :=
  (s.control_mode = ControlMode.Calibration →
    s.left_calibration.ready = false ∧ s.right_calibration.ready = false) ∧
  (s.control_mode = ControlMode.Control →
    s.left_calibration.ready = true ∧ s.right_calibration.ready = true) ∧
  (s.calibration_complete_at_ms ≠ 0 →
    calibration_range_ok s.left_calibration = true ∧
      calibration_range_ok s.right_calibration = true)

/-- A state in the FullRange hold: both ranges wide enough, timer started at
20 ms. -/
def full_range_hold_state : CoreState :=
  { control_mode := ControlMode.Calibration
    calibration_phase := CalibrationPhase.FullRange
    left_calibration := ⟨0, 4095, 2048, false⟩
    right_calibration := ⟨0, 4095, 2048, false⟩
    left_zero_center := ⟨65535, 0, 0, 0⟩
    right_zero_center := ⟨65535, 0, 0, 0⟩
    calibration_complete_at_ms := 20
    zero_center_stable_at_ms := 0 }

/-- A state in the ZeroCenter phase whose accumulators hold the one sample
2048 and whose hold timer was started at 530 ms. -/
def zero_center_hold_state : CoreState :=
  { control_mode := ControlMode.Calibration
    calibration_phase := CalibrationPhase.ZeroCenter
    left_calibration := ⟨0, 4095, 2048, false⟩
    right_calibration := ⟨0, 4095, 2048, false⟩
    left_zero_center := ⟨2048, 2048, 2048, 1⟩
    right_zero_center := ⟨2048, 2048, 2048, 1⟩
    calibration_complete_at_ms := 0
    zero_center_stable_at_ms := 530 }

/-- The accumulator after `reset_zero_center_state` and then one
`update_zero_center_state` per element of `samples`, in order. -/
def zc_accumulate (samples : List Nat) : ZeroCenterState :=
  samples.foldl update_zero_center_state (reset_zero_center_state ⟨0, 0, 0, 0⟩)

/-- Specification side of C11: the accumulator `z` holds exactly the samples
`w` (in the order received): its `min` and `max` are the least and the
greatest of them, `sum` and `count` their sum and number in `uint32_t`
arithmetic. -/
def holds_samples (z : ZeroCenterState) (w : List Nat) : Prop :=
  w ≠ [] ∧ z.min ∈ w ∧ (∀ y ∈ w, z.min ≤ y) ∧ z.max ∈ w ∧ (∀ y ∈ w, y ≤ z.max) ∧
    z.sum = w.sum % 4294967296 ∧ z.count = w.length % 4294967296

/-- Specification side of C11: the samples received by an accumulator `z`
since it was last seeded, after it has been offered `raw` by
`update_zero_center_state`: an empty accumulator is seeded with `raw`, any
other receives `raw` on top of its window `w`. -/
def window_update (z : ZeroCenterState) (w : List Nat) (raw : Nat) : List Nat :=
  if z.count = 0 then [raw] else w ++ [raw]

/-- Specification side of C11: the samples received by the left and the right
accumulator since each was last seeded, at the end of a tick that started with
the windows `w`.  It follows the accumulator calls of `loop`: the windows are
emptied where the accumulators are cleared (recalibration trigger, FullRange
to ZeroCenter), restarted at the tick's samples where both are reseeded
(unstable ZeroCenter tick), and otherwise receive the tick's samples in the
ZeroCenter phase; FullRange and control-mode ticks do not touch them. -/
def loop_windows (s : CoreState) (inp : TickInput) (w : List Nat × List Nat) :
    List Nat × List Nat :=
  if inp.btn_pressed then ([], [])
  else if s.control_mode = ControlMode.Calibration then
    if s.calibration_phase = CalibrationPhase.FullRange then
      if (loop s inp).1.calibration_phase = CalibrationPhase.ZeroCenter then ([], []) else w
    else if zero_center_range_ok (update_zero_center_state s.left_zero_center inp.left_raw) &&
        zero_center_range_ok (update_zero_center_state s.right_zero_center inp.right_raw) then
      (window_update s.left_zero_center w.1 inp.left_raw,
        window_update s.right_zero_center w.2 inp.right_raw)
    else ([inp.left_raw], [inp.right_raw])
  else w

/-- The windows of `loop_windows` after one `loop` pass per element of
`inputs`, from the state `s` with windows `w`. -/
def run_windows : CoreState → List Nat × List Nat → List TickInput → List Nat × List Nat
  | _, w, [] => w
  | s, w, inp :: rest => run_windows (loop s inp).1 (loop_windows s inp w) rest

/-- Invariant tying an accumulator to its window: both empty, or the
accumulator is non-empty and holds exactly the window. -/
def window_inv (z : ZeroCenterState) (w : List Nat) : Prop :=
  (w = [] ∧ z.count = 0) ∨ (z.count ≠ 0 ∧ holds_samples z w)

/-- The ticks of a short calibration: range `0..4095`, 500 ms hold, then the
first sample of the stick at rest. -/
def short_calibration_inputs : List TickInput :=
  [tick_of 0 0 10, tick_of 4095 4095 20, tick_of 0 0 520, tick_of 2050 2047 530]

/-- Sample number `k` (from 0) of the alternating sequence `0, 4095, 0, ...`. -/
def alternating_raw (k : Nat) : Nat := if k % 2 = 0 then 0 else 4095

/-- Tick number `k` (from 0) of the end-to-end scenario: ticks come every
10 ms, the first one at clock reading `b + 10`; both axes read the alternating
sequence during the first `n` ticks and the steady value 2048 afterwards, no
button is pressed. -/
def scenario_tick (b n k : Nat) : TickInput :=
  tick_of (if k < n then alternating_raw k else 2048)
    (if k < n then alternating_raw k else 2048) (b + 10 * (k + 1))

/-- The end-to-end scenario: `n` alternating ticks, then `m` steady ticks. -/
def scenario_inputs (b n m : Nat) : List TickInput :=
  (List.range (n + m)).map (scenario_tick b n)

/-- Scenario state in the FullRange phase: both ranges `0..4095`, range hold
timer `timer`. -/
def fr_state (timer : Nat) : CoreState :=
  { control_mode := ControlMode.Calibration
    calibration_phase := CalibrationPhase.FullRange
    left_calibration := ⟨0, 4095, 2048, false⟩
    right_calibration := ⟨0, 4095, 2048, false⟩
    left_zero_center := ⟨65535, 0, 0, 0⟩
    right_zero_center := ⟨65535, 0, 0, 0⟩
    calibration_complete_at_ms := timer
    zero_center_stable_at_ms := 0 }

/-- Scenario state in the ZeroCenter phase: both accumulators `z`, center hold
timer `timer`. -/
def zc_state (z : ZeroCenterState) (timer : Nat) : CoreState :=
  { control_mode := ControlMode.Calibration
    calibration_phase := CalibrationPhase.ZeroCenter
    left_calibration := ⟨0, 4095, 2048, false⟩
    right_calibration := ⟨0, 4095, 2048, false⟩
    left_zero_center := z
    right_zero_center := z
    calibration_complete_at_ms := 0
    zero_center_stable_at_ms := timer }

/-- Scenario state in control mode: both records `{0, 4095, 2048, ready}`,
both accumulators `z`. -/
def ctl_state (z : ZeroCenterState) : CoreState :=
  { control_mode := ControlMode.Control
    calibration_phase := CalibrationPhase.FullRange
    left_calibration := ⟨0, 4095, 2048, true⟩
    right_calibration := ⟨0, 4095, 2048, true⟩
    left_zero_center := z
    right_zero_center := z
    calibration_complete_at_ms := 0
    zero_center_stable_at_ms := 0 }

/-- The state of the scenario with clock origin `b` and `n` alternating ticks
after its first `k` ticks. -/
def scenario_state (b n k : Nat) : CoreState :=
  if k = 0 then enter_calibration_mode initial_globals
  else if k = 1 then
    { fr_state 0 with
      left_calibration := ⟨0, 0, 2048, false⟩
      right_calibration := ⟨0, 0, 2048, false⟩ }
  else if k ≤ 51 then fr_state (b + 20)
  else if k = 52 then zc_state ⟨65535, 0, 0, 0⟩ 0
  else if n ≤ 52 then
    if k ≤ 102 then zc_state ⟨2048, 2048, 2048 * (k - 52), k - 52⟩ (b + 530)
    else ctl_state ⟨2048, 2048, 2048 * 51, 51⟩
  else if k = 53 then zc_state ⟨0, 0, 0, 1⟩ (b + 530)
  else if k ≤ n then
    zc_state ⟨alternating_raw (k - 1), alternating_raw (k - 1), alternating_raw (k - 1), 1⟩ 0
  else if k = n + 1 then zc_state ⟨2048, 2048, 2048, 1⟩ 0
  else if k ≤ n + 51 then zc_state ⟨2048, 2048, 2048 * (k - n), k - n⟩ (b + 10 * (n + 2))
  else ctl_state ⟨2048, 2048, 2048 * 52, 52⟩

/-! ## Facts about the binary32 model -/

theorem ilog2_aux_spec : ∀ (fuel n : Nat), 0 < n → n ≤ fuel →
    2 ^ ilog2_aux fuel n ≤ n ∧ n < 2 ^ (ilog2_aux fuel n + 1) := by
  intro fuel
  induction fuel with
  | zero => intro n h1 h2; omega
  | succ f ih =>
    intro n h1 h2
    unfold ilog2_aux
    split
    · rename_i h; simp; omega
    · rename_i h
      have h3 : 0 < n / 2 := by omega
      have h4 : n / 2 ≤ f := by omega
      obtain ⟨ha, hb⟩ := ih (n / 2) h3 h4
      constructor
      · rw [pow_succ]; omega
      · rw [pow_succ]; omega

theorem ilog2_le (n : Nat) (h : 0 < n) : 2 ^ ilog2 n ≤ n :=
  (ilog2_aux_spec n n h (le_refl n)).1

theorem ilog2_lt (n : Nat) (h : 0 < n) : n < 2 ^ (ilog2 n + 1) :=
  (ilog2_aux_spec n n h (le_refl n)).2

theorem le_round_half_even (a b : Nat) : a / b ≤ round_half_even a b := by
  unfold round_half_even
  dsimp only
  split_ifs <;> omega

theorem f32_round_zero (b : Nat) : f32_round 0 b = (0, 1) := by
  simp [f32_round]

theorem f32_round_den_pos (a b : Nat) : 0 < (f32_round a b).2 := by
  unfold f32_round
  dsimp only
  split_ifs <;> simp

theorem f32_round_num_pos (a b : Nat) (ha : 0 < a) (hb : 0 < b) : 0 < (f32_round a b).1 := by
  have hla := ilog2_le a ha
  have hlb := ilog2_lt b hb
  unfold f32_round
  have ha0 : a ≠ 0 := by omega
  simp only [ha0, if_false]
  generalize (if b * 2 ^ ilog2 a ≤ a * 2 ^ ilog2 b then 0 else 1) = c
  split_ifs with h
  · -- a * 2 ^ k ≥ 2 ^ (23 + lb + c) > b
    have hk : b ≤ a * 2 ^ (23 + ilog2 b + c - ilog2 a) := by
      have h1 : 2 ^ ilog2 a * 2 ^ (23 + ilog2 b + c - ilog2 a) = 2 ^ (23 + ilog2 b + c) := by
        rw [← pow_add]; congr 1; omega
      have h2 : 2 ^ (ilog2 b + 1) ≤ 2 ^ (23 + ilog2 b + c) :=
        Nat.pow_le_pow_right (by norm_num) (by omega)
      have h3 : 2 ^ ilog2 a * 2 ^ (23 + ilog2 b + c - ilog2 a) ≤
          a * 2 ^ (23 + ilog2 b + c - ilog2 a) := Nat.mul_le_mul_right _ hla
      omega
    have hq : 0 < a * 2 ^ (23 + ilog2 b + c - ilog2 a) / b := Nat.div_pos hk hb
    exact lt_of_lt_of_le hq (le_round_half_even _ _)
  · have hk : b * 2 ^ (ilog2 a - (23 + ilog2 b + c)) ≤ a := by
      have h1 : 2 ^ (ilog2 b + 1) * 2 ^ (ilog2 a - (23 + ilog2 b + c)) ≤ 2 ^ ilog2 a := by
        rw [← pow_add]; exact Nat.pow_le_pow_right (by norm_num) (by omega)
      have h3 : b * 2 ^ (ilog2 a - (23 + ilog2 b + c)) ≤
          2 ^ (ilog2 b + 1) * 2 ^ (ilog2 a - (23 + ilog2 b + c)) :=
        Nat.mul_le_mul_right _ (le_of_lt hlb)
      omega
    have hpos : 0 < b * 2 ^ (ilog2 a - (23 + ilog2 b + c)) :=
      Nat.mul_pos hb (Nat.two_pow_pos _)
    have hq : 0 < a / (b * 2 ^ (ilog2 a - (23 + ilog2 b + c))) := Nat.div_pos hk hpos
    exact Nat.mul_pos (lt_of_lt_of_le hq (le_round_half_even _ _)) (Nat.two_pow_pos _)

theorem f32_round_self (d : Nat) (h : 0 < d) : f32_round d d = (2 ^ 23, 2 ^ 23) := by
  unfold f32_round
  have hd : d ≠ 0 := by omega
  simp only [hd, if_false, le_refl, if_true]
  have h1 : ilog2 d ≤ 23 + ilog2 d + 0 := by omega
  simp only [h1, if_true]
  have h2 : 23 + ilog2 d + 0 - ilog2 d = 23 := by omega
  rw [h2]
  have h3 : d * 2 ^ 23 / d = 2 ^ 23 := Nat.mul_div_cancel_left _ h
  have h4 : d * 2 ^ 23 % d = 0 := Nat.mul_mod_right _ _
  unfold round_half_even
  simp only [h3, h4]
  have h5 : ¬ d < 2 * 0 := by omega
  have h6 : ¬ 2 * 0 = d := by omega
  simp only [h5, h6, if_false]

theorem f32_of_int_den_pos (i : Int) : 0 < (f32_of_int i).den := by
  unfold f32_of_int
  exact f32_round_den_pos _ _

theorem f32_of_int_num_pos (i : Int) (h : i ≠ 0) : 0 < (f32_of_int i).num := by
  unfold f32_of_int
  exact f32_round_num_pos _ _ (Int.natAbs_pos.mpr h) Nat.one_pos

theorem f32_of_int_zero : f32_of_int 0 = ⟨false, 0, 1⟩ := by decide

theorem f32_of_int_neg_eq (i : Int) : (f32_of_int i).neg = decide (i < 0) := rfl

theorem f32_div_self (x : F32) (hn : 0 < x.num) (hd : 0 < x.den) :
    f32_div x x = some ⟨false, 2 ^ 23, 2 ^ 23⟩ := by
  unfold f32_div
  have h0 : x.num ≠ 0 := by omega
  simp only [h0, if_false]
  rw [Nat.mul_comm x.den x.num, f32_round_self _ (Nat.mul_pos hn hd)]
  simp

theorem f32_div_zero (x y : F32) (hx : x.num = 0) (hy : 0 < y.num) :
    f32_div x y = some ⟨xor x.neg y.neg, 0, 1⟩ := by
  unfold f32_div
  have h0 : y.num ≠ 0 := by omega
  simp only [h0, if_false, hx, Nat.zero_mul, f32_round_zero]

theorem f32_div_some (x y : F32) (hy : 0 < y.num) :
    ∃ r, f32_div x y = some r ∧ r.neg = xor x.neg y.neg := by
  unfold f32_div
  have h0 : y.num ≠ 0 := by omega
  simp only [h0, if_false]
  exact ⟨_, rfl, rfl⟩

theorem f32_mul_zero (x y : F32) (hx : x.num = 0) :
    f32_mul x y = ⟨xor x.neg y.neg, 0, 1⟩ := by
  unfold f32_mul
  simp only [hx, Nat.zero_mul, f32_round_zero]

theorem f32_to_int32_zero (x : F32) (hx : x.num = 0) : f32_to_int32 x = 0 := by
  unfold f32_to_int32
  simp [hx]

theorem f32_to_int32_nonneg (x : F32) (hx : x.neg = false) : 0 ≤ f32_to_int32 x := by
  unfold f32_to_int32
  simp only [hx]
  exact Int.ofNat_nonneg _

theorem f32_mul_neg_eq (x y : F32) : (f32_mul x y).neg = xor x.neg y.neg := rfl

/-! ## Facts about the clamp and dead-zone tail -/

theorem to_int16_id (v : Int) (h1 : -32768 ≤ v) (h2 : v ≤ 32767) : to_int16 v = v := by
  unfold to_int16
  omega

theorem map_finish_zero (scale : Int) (h : -40 < scale) : map_finish 0 scale = 0 := by
  unfold map_finish apply_deadzone kDeadzone
  dsimp only
  split_ifs <;> rw [to_int16_id] at * <;> omega

theorem map_finish_bounds (v scale : Int) (h0 : 0 ≤ scale) (h1 : scale ≤ 32767) :
    -scale ≤ map_finish v scale ∧ map_finish v scale ≤ scale := by
  unfold map_finish apply_deadzone kDeadzone
  dsimp only
  split_ifs <;> rw [to_int16_id] at * <;> omega

theorem map_finish_nonpos (v scale : Int) (hv : 0 ≤ v) (h0 : 0 ≤ scale) (h1 : scale ≤ 32767) :
    map_finish v scale ≤ 0 := by
  unfold map_finish apply_deadzone kDeadzone
  dsimp only
  split_ifs <;> rw [to_int16_id] at * <;> omega

theorem map_finish_nonneg (v scale : Int) (hv : v ≤ 0) (h0 : 0 ≤ scale) (h1 : scale ≤ 32767) :
    0 ≤ map_finish v scale := by
  unfold map_finish apply_deadzone kDeadzone
  dsimp only
  split_ifs <;> rw [to_int16_id] at * <;> omega

/-! ## Shape of `map_raw_to_scaled` -/

/-- Every call of `map_raw_to_scaled` returns: either `0` from one of the
guards, or the clamped and dead-zoned image of a product `ratio * scale` whose
`ratio` is non-negative, negated on the low side of the centre. -/
theorem map_raw_to_scaled_shape (raw : Nat) (cal : StickCalibration) (scale : Int) :
    map_raw_to_scaled raw cal scale = some 0 ∨
    (cal.center ≤ raw ∧ ∃ ratio : F32, ratio.neg = false ∧
      map_raw_to_scaled raw cal scale =
        some (map_finish (f32_to_int32 (f32_mul ratio (f32_of_int scale))) scale)) ∨
    (raw < cal.center ∧ ∃ ratio : F32, ratio.neg = false ∧
      map_raw_to_scaled raw cal scale =
        some (map_finish (-f32_to_int32 (f32_mul ratio (f32_of_int scale))) scale)) := by
  unfold map_raw_to_scaled
  dsimp only
  split_ifs with h1 h2 h3 h4
  · exact Or.inl rfl
  · exact Or.inl rfl
  · right; left
    have hden : (cal.max : Int) - cal.center ≠ 0 := by omega
    obtain ⟨r, hr, hneg⟩ := f32_div_some (f32_of_int ((raw : Int) - cal.center))
      (f32_of_int ((cal.max : Int) - cal.center)) (f32_of_int_num_pos _ hden)
    refine ⟨by omega, r, ?_, ?_⟩
    · rw [hneg, f32_of_int_neg_eq, f32_of_int_neg_eq]
      have e1 : ¬ ((raw : Int) - cal.center < 0) := by omega
      have e2 : ¬ ((cal.max : Int) - cal.center < 0) := by omega
      simp [e1, e2]
    · rw [hr]
  · exact Or.inl rfl
  · right; right
    have hden : (cal.center : Int) - cal.min ≠ 0 := by omega
    obtain ⟨r, hr, hneg⟩ := f32_div_some (f32_of_int ((cal.center : Int) - raw))
      (f32_of_int ((cal.center : Int) - cal.min)) (f32_of_int_num_pos _ hden)
    refine ⟨by omega, r, ?_, ?_⟩
    · rw [hneg, f32_of_int_neg_eq, f32_of_int_neg_eq]
      have e1 : ¬ ((cal.center : Int) - raw < 0) := by omega
      have e2 : ¬ ((cal.center : Int) - cal.min < 0) := by omega
      simp [e1, e2]
    · rw [hr]

theorem map_center_zero (cal : StickCalibration) (scale : Int)
    (hr : cal.ready = true) (hs : -40 < scale) :
    map_raw_to_scaled cal.center cal scale = some 0 := by
  unfold map_raw_to_scaled
  simp only [hr, Bool.not_true, Bool.false_eq_true, if_false, ge_iff_le, le_refl, if_true,
    sub_self, f32_of_int_zero]
  by_cases hd : (cal.max : Int) - cal.center ≤ 0
  · simp only [hd, if_true]
  · simp only [hd, if_false]
    have hden : (cal.max : Int) - cal.center ≠ 0 := by omega
    rw [f32_div_zero _ _ rfl (f32_of_int_num_pos _ hden)]
    dsimp only
    rw [f32_mul_zero _ _ rfl, f32_to_int32_zero _ rfl, map_finish_zero scale hs]


theorem map_at_max (cal : StickCalibration) (scale : Int) (hr : cal.ready = true)
    (h : cal.center < cal.max) :
    map_raw_to_scaled cal.max cal scale = some (map_finish (f32_to_int32
      (f32_mul ⟨false, 2 ^ 23, 2 ^ 23⟩ (f32_of_int scale))) scale) := by
  unfold map_raw_to_scaled
  have h1 : (cal.max : Int) ≥ cal.center := by omega
  have h2 : ¬ ((cal.max : Int) - cal.center ≤ 0) := by omega
  have h3 : (cal.max : Int) - cal.center ≠ 0 := by omega
  simp only [hr, Bool.not_true, Bool.false_eq_true, if_false, h1, if_true, h2]
  rw [f32_div_self _ (f32_of_int_num_pos _ h3) (f32_of_int_den_pos _)]

theorem map_at_min (cal : StickCalibration) (scale : Int) (hr : cal.ready = true)
    (h : cal.min < cal.center) :
    map_raw_to_scaled cal.min cal scale = some (map_finish (-f32_to_int32
      (f32_mul ⟨false, 2 ^ 23, 2 ^ 23⟩ (f32_of_int scale))) scale) := by
  unfold map_raw_to_scaled
  have h1 : ¬ ((cal.min : Int) ≥ cal.center) := by omega
  have h2 : ¬ ((cal.center : Int) - cal.min ≤ 0) := by omega
  have h3 : (cal.center : Int) - cal.min ≠ 0 := by omega
  simp only [hr, Bool.not_true, Bool.false_eq_true, if_false, h1, h2]
  rw [f32_div_self _ (f32_of_int_num_pos _ h3) (f32_of_int_den_pos _)]

theorem map_unready (raw : Nat) (cal : StickCalibration) (scale : Int)
    (h : cal.ready = false) : map_raw_to_scaled raw cal scale = some 0 := by
  unfold map_raw_to_scaled
  simp [h]

/-! ## Command mapper: claims -/

/-- C1: on a calibration record with `ready == false`, whatever its `min`,
`max` and `center`, `map_raw_to_scaled` returns exactly 0 for every raw sample
and every scale. -/
theorem C1_unready_maps_to_zero (raw : Nat) (cal : StickCalibration) (scale : Int)
    (h : cal.ready = false) : map_raw_to_scaled raw cal scale = some 0 :=
  map_unready raw cal scale h

theorem C1_unready_maps_to_zero_witness :
    map_raw_to_scaled 4095 ⟨0, 4095, 2048, false⟩ 2000 = some 0 :=
  C1_unready_maps_to_zero 4095 ⟨0, 4095, 2048, false⟩ 2000 rfl

/-- C2: for every calibration record with `ready == true` (any `min`, `max`,
`center`) and every scale the mapper is called with,
`map_raw_to_scaled (raw = cal.center, cal, scale) == 0`.  The mapper is local
to `main.cpp` and `loop`, its only caller, passes `kNormalScale` (1000) or
`kBoostScale` (2000); the equation holds for every scale above `-40`. -/
theorem C2_center_maps_to_zero (cal : StickCalibration) (hr : cal.ready = true) :
    map_raw_to_scaled cal.center cal kNormalScale = some 0 ∧
    map_raw_to_scaled cal.center cal kBoostScale = some 0 ∧
    (∀ scale : Int, -40 < scale → map_raw_to_scaled cal.center cal scale = some 0) :=
  ⟨map_center_zero cal kNormalScale hr (by decide),
    map_center_zero cal kBoostScale hr (by decide),
    fun scale hs => map_center_zero cal scale hr hs⟩

theorem C2_center_maps_to_zero_witness :
    map_raw_to_scaled 2048 ⟨0, 4095, 2048, true⟩ kNormalScale = some 0 ∧
    map_raw_to_scaled 2048 ⟨0, 4095, 2048, true⟩ kBoostScale = some 0 ∧
    map_raw_to_scaled 2048 ⟨0, 4095, 2048, true⟩ (-39) = some 0 :=
  ⟨(C2_center_maps_to_zero ⟨0, 4095, 2048, true⟩ rfl).1,
    (C2_center_maps_to_zero ⟨0, 4095, 2048, true⟩ rfl).2.1,
    (C2_center_maps_to_zero ⟨0, 4095, 2048, true⟩ rfl).2.2 (-39) (by decide)⟩

/-- The bound `-40 < scale` is sharp: at the scale `-40`, which no caller
passes, the two clamps of `map_raw_to_scaled` turn the intermediate 0 into
`-scale = 40`, and the dead zone lets 40 through. -/
theorem map_center_at_scale_minus_40 :
    map_raw_to_scaled 2048 ⟨0, 4095, 2048, true⟩ (-40) = some 40 := by
  decide

/-- C3 as stated fails: the ready record `{min 0, max 4095, center 4095}`
satisfies the data-model invariant, yet `raw = max` is mapped to `0`, not to
`-1000`. -/
theorem C3_counterexample :
    (⟨0, 4095, 4095, true⟩ : StickCalibration).ready = true ∧
    calibration_invariant ⟨0, 4095, 4095, true⟩ ∧
    map_raw_to_scaled 4095 ⟨0, 4095, 4095, true⟩ 1000 = some 0 ∧
    map_raw_to_scaled 4095 ⟨0, 4095, 4095, true⟩ 1000 ≠ some (-1000) := by
  decide

/-- C3 (amended): for every ready calibration whose centre lies strictly
inside the range (`min < center < max`) and for `scale` in `{1000, 2000}`,
`map_raw_to_scaled (cal.max, cal, scale)` is strictly negative and equals
`-scale`, and `map_raw_to_scaled (cal.min, cal, scale)` is strictly positive
and equals `+scale`. -/
theorem C3_extremes_map_to_full_scale (cal : StickCalibration) (scale : Int)
    (hr : cal.ready = true) (h1 : cal.min < cal.center) (h2 : cal.center < cal.max)
    (hs : scale = 1000 ∨ scale = 2000) :
    map_raw_to_scaled cal.max cal scale = some (-scale) ∧ -scale < 0 ∧
    map_raw_to_scaled cal.min cal scale = some scale ∧ 0 < scale := by
  rw [map_at_max cal scale hr h2, map_at_min cal scale hr h1]
  rcases hs with hs | hs <;> subst hs <;> decide

theorem C3_extremes_map_to_full_scale_witness :
    map_raw_to_scaled 4095 ⟨0, 4095, 2048, true⟩ 2000 = some (-2000) ∧ -(2000 : Int) < 0 ∧
    map_raw_to_scaled 0 ⟨0, 4095, 2048, true⟩ 2000 = some 2000 ∧ (0 : Int) < 2000 :=
  C3_extremes_map_to_full_scale ⟨0, 4095, 2048, true⟩ 2000 rfl (by decide) (by decide)
    (Or.inr rfl)

/-- C4: sign convention of `map_raw_to_scaled`.  For every ready calibration
with `min < center < max` and every scale `> 0`, the function returns a
command that is never positive for a raw value above the centre, never
negative for a raw value below it, and zero at the centre: every non-zero
command has the sign opposite to `raw - center`. -/
theorem C4_sign_convention (raw : Nat) (cal : StickCalibration) (scale : Int)
    (hr : cal.ready = true) (_hmin : cal.min < cal.center) (_hmax : cal.center < cal.max)
    (hs : 0 < scale) (hs16 : scale ≤ 32767) :
    ∃ r : Int, map_raw_to_scaled raw cal scale = some r ∧
      (cal.center < raw → r ≤ 0) ∧ (raw < cal.center → 0 ≤ r) ∧
      (raw = cal.center → r = 0) ∧
      (r ≠ 0 → (0 < r ↔ (raw : Int) - cal.center < 0)) := by
  have hsc : (f32_of_int scale).neg = false := by
    rw [f32_of_int_neg_eq]; simp; omega
  have key : ∃ r : Int, map_raw_to_scaled raw cal scale = some r ∧
      (cal.center < raw → r ≤ 0) ∧ (raw < cal.center → 0 ≤ r) ∧ (raw = cal.center → r = 0) := by
    rcases map_raw_to_scaled_shape raw cal scale with h | ⟨hc, ratio, hn, h⟩ | ⟨hc, ratio, hn, h⟩
    · exact ⟨0, h, fun _ => le_refl _, fun _ => le_refl _, fun _ => rfl⟩
    · have hv : 0 ≤ f32_to_int32 (f32_mul ratio (f32_of_int scale)) :=
        f32_to_int32_nonneg _ (by rw [f32_mul_neg_eq, hn, hsc]; rfl)
      refine ⟨_, h, fun _ => map_finish_nonpos _ _ hv (le_of_lt hs) hs16, fun hlt => ?_,
        fun he => ?_⟩
      · omega
      · subst he
        rw [map_center_zero cal scale hr (by omega)] at h
        exact (Option.some.inj h).symm
    · have hv : -f32_to_int32 (f32_mul ratio (f32_of_int scale)) ≤ 0 := by
        have := f32_to_int32_nonneg (f32_mul ratio (f32_of_int scale))
          (by rw [f32_mul_neg_eq, hn, hsc]; rfl)
        omega
      refine ⟨_, h, fun hlt => ?_, fun _ => map_finish_nonneg _ _ hv (le_of_lt hs) hs16,
        fun he => ?_⟩
      · omega
      · omega
  obtain ⟨r, hres, ha, hb, hc⟩ := key
  refine ⟨r, hres, ha, hb, hc, fun hne => ?_⟩
  rcases Nat.lt_trichotomy raw cal.center with hlt | heq | hgt
  · have := hb hlt; omega
  · exact absurd (hc heq) hne
  · have := ha hgt; omega

theorem C4_sign_convention_witness :
    ∃ r : Int, map_raw_to_scaled 3000 ⟨0, 4095, 2048, true⟩ 1000 = some r ∧
      (2048 < 3000 → r ≤ 0) ∧ (3000 < 2048 → 0 ≤ r) ∧ (3000 = 2048 → r = 0) ∧
      (r ≠ 0 → (0 < r ↔ ((3000 : Nat) : Int) - (2048 : Nat) < 0)) :=
  C4_sign_convention 3000 ⟨0, 4095, 2048, true⟩ 1000 rfl (by decide) (by decide)
    (by decide) (by decide)

/-- C5: for every raw sample (also outside `[cal.min, cal.max]`), every
calibration record and every `int16_t` scale `>= 0`, `map_raw_to_scaled`
returns a result `r` with `-scale <= r <= scale`. -/
theorem C5_result_within_scale (raw : Nat) (cal : StickCalibration) (scale : Int)
    (h0 : 0 ≤ scale) (h16 : scale ≤ 32767) :
    ∃ r : Int, map_raw_to_scaled raw cal scale = some r ∧ -scale ≤ r ∧ r ≤ scale := by
  rcases map_raw_to_scaled_shape raw cal scale with h | ⟨_, ratio, _, h⟩ | ⟨_, ratio, _, h⟩
  · exact ⟨0, h, by omega, h0⟩
  · exact ⟨_, h, map_finish_bounds _ _ h0 h16⟩
  · exact ⟨_, h, map_finish_bounds _ _ h0 h16⟩

theorem C5_result_within_scale_witness :
    ∃ r : Int, map_raw_to_scaled 65535 ⟨100, 3000, 2048, true⟩ 1000 = some r ∧
      -1000 ≤ r ∧ r ≤ 1000 :=
  C5_result_within_scale 65535 ⟨100, 3000, 2048, true⟩ 1000 (by decide) (by decide)

/-- C6: `apply_deadzone (v, 40)` returns 0 for every `v` with `-40 < v < 40`
and returns `v` unchanged for every other `v`; in particular
`apply_deadzone (40, 40) == 40` and `apply_deadzone (-40, 40) == -40`.  The
dead zone that `map_raw_to_scaled` passes is `kDeadzone == 40`. -/
theorem C6_deadzone (v : Int) :
    ((-40 < v ∧ v < 40) → apply_deadzone v 40 = 0) ∧
    (¬ (-40 < v ∧ v < 40) → apply_deadzone v 40 = v) ∧
    apply_deadzone 40 40 = 40 ∧ apply_deadzone (-40) 40 = -40 ∧ kDeadzone = 40 := by
  refine ⟨fun h => ?_, fun h => ?_, by decide, by decide, rfl⟩
  · unfold apply_deadzone
    have : v > -40 ∧ v < 40 := ⟨by omega, h.2⟩
    simp only [this, and_self, if_true]
  · unfold apply_deadzone
    have : ¬ (v > -40 ∧ v < 40) := fun hh => h ⟨by omega, hh.2⟩
    simp only [this, if_false]

/-- C7: `map_raw_to_scaled` never divides by zero: it returns a value on every
input (the model yields `none` exactly where a division by zero would be
evaluated); for a ready calibration, whenever the side selected by `raw` has
non-positive width (`raw >= center` and `max <= center`, or `raw < center`
and `center <= min`) it returns 0; so for a ready calibration with
`min == center == max` it returns 0 for every raw and scale. -/
theorem C7_no_division_by_zero :
    (∀ (raw : Nat) (cal : StickCalibration) (scale : Int),
      (map_raw_to_scaled raw cal scale).isSome = true) ∧
    (∀ (raw : Nat) (cal : StickCalibration) (scale : Int), cal.ready = true →
      ((cal.center ≤ raw ∧ cal.max ≤ cal.center) ∨ (raw < cal.center ∧ cal.center ≤ cal.min)) →
      map_raw_to_scaled raw cal scale = some 0) ∧
    (∀ (raw : Nat) (cal : StickCalibration) (scale : Int), cal.ready = true →
      cal.min = cal.center → cal.center = cal.max →
      map_raw_to_scaled raw cal scale = some 0) := by
  have guard : ∀ (raw : Nat) (cal : StickCalibration) (scale : Int), cal.ready = true →
      ((cal.center ≤ raw ∧ cal.max ≤ cal.center) ∨ (raw < cal.center ∧ cal.center ≤ cal.min)) →
      map_raw_to_scaled raw cal scale = some 0 := by
    intro raw cal scale hr h
    unfold map_raw_to_scaled
    simp only [hr, Bool.not_true, Bool.false_eq_true, if_false]
    rcases h with ⟨ha, hb⟩ | ⟨ha, hb⟩
    · have e1 : (raw : Int) ≥ cal.center := by omega
      have e2 : (cal.max : Int) - cal.center ≤ 0 := by omega
      simp only [e1, e2, if_true]
    · have e1 : ¬ ((raw : Int) ≥ cal.center) := by omega
      have e2 : (cal.center : Int) - cal.min ≤ 0 := by omega
      simp only [e1, e2, if_true, if_false]
  refine ⟨fun raw cal scale => ?_, guard, fun raw cal scale hr h1 h2 => ?_⟩
  · rcases map_raw_to_scaled_shape raw cal scale with h | ⟨_, ratio, _, h⟩ | ⟨_, ratio, _, h⟩ <;>
      rw [h] <;> rfl
  · apply guard raw cal scale hr
    rcases Nat.lt_or_ge raw cal.center with hlt | hge
    · exact Or.inr ⟨hlt, by omega⟩
    · exact Or.inl ⟨hge, by omega⟩

/-! ## Calibration machine: supporting facts -/

theorem update_calibration_ready (cal : StickCalibration) (raw : Nat) :
    (update_calibration cal raw).ready = cal.ready := by
  unfold update_calibration
  dsimp only
  split_ifs <;> rfl

theorem update_calibration_center (cal : StickCalibration) (raw : Nat) :
    (update_calibration cal raw).center = cal.center := by
  unfold update_calibration
  dsimp only
  split_ifs <;> rfl

theorem calibration_range_ok_spec (cal : StickCalibration)
    (h : calibration_range_ok cal = true) : cal.min < cal.max ∧ 3072 ≤ cal.max - cal.min := by
  unfold calibration_range_ok kCalibRangeThreshold kRawResolution at h
  simp only [Bool.and_eq_true, decide_eq_true_eq] at h
  omega

theorem acc_ok_reset (z : ZeroCenterState) : acc_ok (reset_zero_center_state z) := by
  unfold acc_ok reset_zero_center_state
  simp

theorem acc_ok_seed (z : ZeroCenterState) (raw : Nat) (hr : raw ≤ 4095) :
    acc_ok (seed_zero_center_state z raw) := by
  unfold acc_ok seed_zero_center_state
  dsimp only
  omega

theorem acc_ok_update (z : ZeroCenterState) (raw : Nat) (h : acc_ok z) (hr : raw ≤ 4095) :
    acc_ok (update_zero_center_state z raw) := by
  unfold update_zero_center_state
  by_cases hc : z.count = 0
  · rw [if_pos hc]; exact acc_ok_seed z raw hr
  · rw [if_neg hc]
    unfold acc_ok at h ⊢
    dsimp only
    split_ifs <;> (try dsimp only) <;> omega

theorem zero_center_average_le (z : ZeroCenterState) (h : acc_ok z) :
    zero_center_average z ≤ 4095 := by
  unfold zero_center_average to_uint16 kRawResolution
  split_ifs with hc
  · decide
  · obtain ⟨_, h2⟩ := h
    have h3 : z.sum ≤ z.count * 4095 := by omega
    have h4 : z.sum / z.count ≤ 4095 := Nat.div_le_of_le_mul h3
    exact le_trans (Nat.mod_le _ _) h4

theorem core_inv_enter (s : CoreState) : core_inv (enter_calibration_mode s) := by
  unfold core_inv enter_calibration_mode
  dsimp only
  refine ⟨fun _ => ⟨rfl, rfl⟩, fun h => ?_, fun h => ?_, ?_, ?_, acc_ok_reset _, acc_ok_reset _⟩
  · cases h
  · rcases h with h | h <;> cases h
  · unfold reset_calibration kRawResolution; decide
  · unfold reset_calibration kRawResolution; decide

theorem phase_cases (p : CalibrationPhase) (h : ¬ p = CalibrationPhase.FullRange) :
    p = CalibrationPhase.ZeroCenter := by
  cases p
  · exact absurd rfl h
  · rfl

theorem phase_cases_full (p : CalibrationPhase) (h : ¬ p = CalibrationPhase.ZeroCenter) :
    p = CalibrationPhase.FullRange := by
  cases p
  · rfl
  · exact absurd rfl h

theorem finalize_calibration_range_ok (cal : StickCalibration) (c : Nat) :
    calibration_range_ok (finalize_calibration cal c) = calibration_range_ok cal := rfl

/-- The loop invariant is kept by every tick whose raw samples lie in
`[0, 4095]`. -/
theorem core_inv_loop (s : CoreState) (inp : TickInput) (h : core_inv s)
    (hl : inp.left_raw ≤ 4095) (hr : inp.right_raw ≤ 4095) : core_inv (loop s inp).1 := by
  have ht : core_inv (if inp.btn_pressed = true then enter_calibration_mode s else s) := by
    split_ifs
    · exact core_inv_enter s
    · exact h
  unfold loop
  generalize (if inp.btn_pressed = true then enter_calibration_mode s else s) = t at ht ⊢
  obtain ⟨i1, i2, i3, i4, i5, i6, i7⟩ := ht
  dsimp only
  split_ifs with hm hp hrng hz hhold hz2 hstab hhold2
  all_goals unfold core_inv
  all_goals dsimp only
  all_goals first
    | exact ⟨i1, i2, i3, i4, i5, i6, i7⟩
    | (simp_all [update_calibration_ready, update_calibration_center, acc_ok_reset, acc_ok_seed,
        acc_ok_update, zero_center_average_le, finalize_calibration_range_ok, phase_cases]; done)
    | exact ⟨fun hc => (by cases hc), fun _ => ⟨rfl, rfl⟩,
        fun _ => i3 (Or.inr (phase_cases _ hp)),
        zero_center_average_le _ (acc_ok_update _ _ i6 hl),
        zero_center_average_le _ (acc_ok_update _ _ i7 hr),
        acc_ok_update _ _ i6 hl, acc_ok_update _ _ i7 hr⟩

theorem core_inv_run (inputs : List TickInput) :
    ∀ s : CoreState, core_inv s →
      (∀ inp ∈ inputs, inp.left_raw ≤ 4095 ∧ inp.right_raw ≤ 4095) →
      core_inv (run s inputs) := by
  induction inputs with
  | nil => intro s h _; exact h
  | cons inp rest ih =>
    intro s h hv
    have h1 := hv inp (List.mem_cons_self _ _)
    exact ih (loop s inp).1 (core_inv_loop s inp h h1.1 h1.2)
      (fun i hi => hv i (List.mem_cons_of_mem _ hi))

theorem update_after_reset (cal : StickCalibration) (raw : Nat) (h : raw < 65536) :
    update_calibration (reset_calibration cal) raw = ⟨raw, raw, 2048, false⟩ := by
  unfold update_calibration reset_calibration UINT16_MAX kRawResolution
  by_cases h1 : raw < 65535 <;> by_cases h2 : 0 < raw <;> simp [h1, h2] <;> omega

theorem range_not_ok_single (raw center : Nat) (ready : Bool) :
    calibration_range_ok ⟨raw, raw, center, ready⟩ = false := by
  unfold calibration_range_ok
  simp

/-- The globals at the end of a tick in which the recalibrate button edge is
seen: `enter_calibration_mode` runs and the same pass then executes the
FullRange logic on the tick's samples. -/
theorem loop_on_recalibrate (s : CoreState) (inp : TickInput) (hb : inp.btn_pressed = true)
    (hl : inp.left_raw < 65536) (hr : inp.right_raw < 65536) :
    (loop s inp).1 =
      { control_mode := ControlMode.Calibration
        calibration_phase := CalibrationPhase.FullRange
        left_calibration := ⟨inp.left_raw, inp.left_raw, 2048, false⟩
        right_calibration := ⟨inp.right_raw, inp.right_raw, 2048, false⟩
        left_zero_center := ⟨65535, 0, 0, 0⟩
        right_zero_center := ⟨65535, 0, 0, 0⟩
        calibration_complete_at_ms := 0
        zero_center_stable_at_ms := 0 } := by
  unfold loop
  simp only [hb, if_true]
  have e1 : (enter_calibration_mode s).control_mode = ControlMode.Calibration := rfl
  have e2 : (enter_calibration_mode s).calibration_phase = CalibrationPhase.FullRange := rfl
  have e3 : (enter_calibration_mode s).left_calibration = reset_calibration s.left_calibration :=
    rfl
  have e4 : (enter_calibration_mode s).right_calibration =
      reset_calibration s.right_calibration := rfl
  simp only [e1, e2, e3, e4, if_true, range_not_ok_single, Bool.false_and,
    Bool.false_eq_true, if_false, update_after_reset _ _ hl, update_after_reset _ _ hr]
  rfl

/-! ## Calibration machine: claims -/

/-- C8 as stated fails: five ticks with raw samples in `[0, 4095]` and an
increasing clock (range `0..3072` held for 500 ms, then the stick resting at
4095 for 500 ms) reach a state whose left record is ready with
`center = 4095 > max = 3072`. -/
theorem C8_counterexample :
    inputs_valid [tick_of 0 0 10, tick_of 3072 3072 20, tick_of 0 0 520,
      tick_of 4095 4095 530, tick_of 4095 4095 1030] ∧
    (run (enter_calibration_mode initial_globals) [tick_of 0 0 10, tick_of 3072 3072 20,
      tick_of 0 0 520, tick_of 4095 4095 530, tick_of 4095 4095 1030]).left_calibration =
        ⟨0, 3072, 4095, true⟩ ∧
    ¬ calibration_invariant (run (enter_calibration_mode initial_globals)
      [tick_of 0 0 10, tick_of 3072 3072 20, tick_of 0 0 520, tick_of 4095 4095 530,
        tick_of 4095 4095 1030]).left_calibration := by
  decide

/-- C8 (amended): in every state reachable from the initial state
(`enter_calibration_mode`) by any sequence of ticks with raw samples in
`[0, 4095]`, arbitrary recalibrate-button values and non-decreasing clock
readings, for each axis `ready == true` implies `max > min`,
`max - min >= 3072` and `center <= 4095`; `center` need not lie in
`[min, max]`. -/
theorem C8_ready_implies_range_and_center_bound (inputs : List TickInput)
    (h : inputs_valid inputs) :
    ((run (enter_calibration_mode initial_globals) inputs).left_calibration.ready = true →
      (run (enter_calibration_mode initial_globals) inputs).left_calibration.min <
        (run (enter_calibration_mode initial_globals) inputs).left_calibration.max ∧
      3072 ≤ (run (enter_calibration_mode initial_globals) inputs).left_calibration.max -
        (run (enter_calibration_mode initial_globals) inputs).left_calibration.min ∧
      (run (enter_calibration_mode initial_globals) inputs).left_calibration.center ≤ 4095) ∧
    ((run (enter_calibration_mode initial_globals) inputs).right_calibration.ready = true →
      (run (enter_calibration_mode initial_globals) inputs).right_calibration.min <
        (run (enter_calibration_mode initial_globals) inputs).right_calibration.max ∧
      3072 ≤ (run (enter_calibration_mode initial_globals) inputs).right_calibration.max -
        (run (enter_calibration_mode initial_globals) inputs).right_calibration.min ∧
      (run (enter_calibration_mode initial_globals) inputs).right_calibration.center ≤ 4095) := by
  have hinv := core_inv_run inputs (enter_calibration_mode initial_globals)
    (core_inv_enter initial_globals) h.1
  generalize run (enter_calibration_mode initial_globals) inputs = s at hinv ⊢
  obtain ⟨i1, _, i3, i4, i5, _, _⟩ := hinv
  have hctl : ∀ c : StickCalibration, (s.control_mode = ControlMode.Calibration →
      c.ready = false) → c.ready = true → s.control_mode = ControlMode.Control := by
    intro c hc hr
    cases hm : s.control_mode
    · rw [hc hm] at hr; cases hr
    · rfl
  constructor
  · intro hr
    have hm := hctl s.left_calibration (fun hm => (i1 hm).1) hr
    have h3 := calibration_range_ok_spec _ (i3 (Or.inl hm)).1
    exact ⟨h3.1, h3.2, i4⟩
  · intro hr
    have hm := hctl s.right_calibration (fun hm => (i1 hm).2) hr
    have h3 := calibration_range_ok_spec _ (i3 (Or.inl hm)).2
    exact ⟨h3.1, h3.2, i5⟩

theorem C8_ready_implies_range_and_center_bound_witness :
    ((run (enter_calibration_mode initial_globals) [tick_of 0 0 10, tick_of 4095 4095 20,
        tick_of 0 0 520, tick_of 2048 2048 530, tick_of 2048 2048 1030]).left_calibration.ready
        = true →
      (run (enter_calibration_mode initial_globals) [tick_of 0 0 10, tick_of 4095 4095 20,
        tick_of 0 0 520, tick_of 2048 2048 530, tick_of 2048 2048 1030]).left_calibration.min <
        (run (enter_calibration_mode initial_globals) [tick_of 0 0 10, tick_of 4095 4095 20,
        tick_of 0 0 520, tick_of 2048 2048 530, tick_of 2048 2048 1030]).left_calibration.max ∧
      3072 ≤ (run (enter_calibration_mode initial_globals) [tick_of 0 0 10, tick_of 4095 4095 20,
        tick_of 0 0 520, tick_of 2048 2048 530, tick_of 2048 2048 1030]).left_calibration.max -
        (run (enter_calibration_mode initial_globals) [tick_of 0 0 10, tick_of 4095 4095 20,
        tick_of 0 0 520, tick_of 2048 2048 530, tick_of 2048 2048 1030]).left_calibration.min ∧
      (run (enter_calibration_mode initial_globals) [tick_of 0 0 10, tick_of 4095 4095 20,
        tick_of 0 0 520, tick_of 2048 2048 530, tick_of 2048 2048 1030]).left_calibration.center
        ≤ 4095) ∧
    ((run (enter_calibration_mode initial_globals) [tick_of 0 0 10, tick_of 4095 4095 20,
        tick_of 0 0 520, tick_of 2048 2048 530, tick_of 2048 2048 1030]).right_calibration.ready
        = true →
      (run (enter_calibration_mode initial_globals) [tick_of 0 0 10, tick_of 4095 4095 20,
        tick_of 0 0 520, tick_of 2048 2048 530, tick_of 2048 2048 1030]).right_calibration.min <
        (run (enter_calibration_mode initial_globals) [tick_of 0 0 10, tick_of 4095 4095 20,
        tick_of 0 0 520, tick_of 2048 2048 530, tick_of 2048 2048 1030]).right_calibration.max ∧
      3072 ≤ (run (enter_calibration_mode initial_globals) [tick_of 0 0 10, tick_of 4095 4095 20,
        tick_of 0 0 520, tick_of 2048 2048 530, tick_of 2048 2048 1030]).right_calibration.max -
        (run (enter_calibration_mode initial_globals) [tick_of 0 0 10, tick_of 4095 4095 20,
        tick_of 0 0 520, tick_of 2048 2048 530, tick_of 2048 2048 1030]).right_calibration.min ∧
      (run (enter_calibration_mode initial_globals) [tick_of 0 0 10, tick_of 4095 4095 20,
        tick_of 0 0 520, tick_of 2048 2048 530, tick_of 2048 2048 1030]).right_calibration.center
        ≤ 4095) :=
  C8_ready_implies_range_and_center_bound [tick_of 0 0 10, tick_of 4095 4095 20,
    tick_of 0 0 520, tick_of 2048 2048 530, tick_of 2048 2048 1030] (by decide)

/-- C9: recalibration is unconditional.  For every core state (any mode,
phase, calibration records, accumulators and hold timers) and every pair of
`uint16_t` raw samples, a tick in which the recalibrate trigger fires ends with
`mode == Calibration`, `phase == FullRange`, `ready == false` on both axes,
both zero-center accumulators cleared (`count == 0`, `sum == 0`) and both hold
timers not started; hence `map_raw_to_scaled` on either axis afterwards
returns 0 for every raw and scale. -/
theorem C9_recalibration_is_unconditional (s : CoreState) (inp : TickInput)
    (hb : inp.btn_pressed = true) (hl : inp.left_raw < 65536) (hr : inp.right_raw < 65536) :
    (loop s inp).1.control_mode = ControlMode.Calibration ∧
    (loop s inp).1.calibration_phase = CalibrationPhase.FullRange ∧
    (loop s inp).1.left_calibration.ready = false ∧
    (loop s inp).1.right_calibration.ready = false ∧
    (loop s inp).1.left_zero_center.count = 0 ∧ (loop s inp).1.left_zero_center.sum = 0 ∧
    (loop s inp).1.right_zero_center.count = 0 ∧ (loop s inp).1.right_zero_center.sum = 0 ∧
    (loop s inp).1.calibration_complete_at_ms = 0 ∧
    (loop s inp).1.zero_center_stable_at_ms = 0 ∧
    (∀ (raw : Nat) (scale : Int),
      map_raw_to_scaled raw (loop s inp).1.left_calibration scale = some 0 ∧
      map_raw_to_scaled raw (loop s inp).1.right_calibration scale = some 0) := by
  rw [loop_on_recalibrate s inp hb hl hr]
  exact ⟨rfl, rfl, rfl, rfl, rfl, rfl, rfl, rfl, rfl, rfl,
    fun raw scale => ⟨map_unready _ _ _ rfl, map_unready _ _ _ rfl⟩⟩

theorem C9_recalibration_is_unconditional_witness :
    (loop calibrated_control_state ⟨3000, 1000, true, 7000, false, true⟩).1.control_mode =
      ControlMode.Calibration ∧
    (loop calibrated_control_state ⟨3000, 1000, true, 7000, false, true⟩).1.calibration_phase =
      CalibrationPhase.FullRange ∧
    (loop calibrated_control_state
      ⟨3000, 1000, true, 7000, false, true⟩).1.left_calibration.ready = false ∧
    (loop calibrated_control_state
      ⟨3000, 1000, true, 7000, false, true⟩).1.right_calibration.ready = false ∧
    (loop calibrated_control_state
      ⟨3000, 1000, true, 7000, false, true⟩).1.left_zero_center.count = 0 ∧
    (loop calibrated_control_state
      ⟨3000, 1000, true, 7000, false, true⟩).1.left_zero_center.sum = 0 ∧
    (loop calibrated_control_state
      ⟨3000, 1000, true, 7000, false, true⟩).1.right_zero_center.count = 0 ∧
    (loop calibrated_control_state
      ⟨3000, 1000, true, 7000, false, true⟩).1.right_zero_center.sum = 0 ∧
    (loop calibrated_control_state
      ⟨3000, 1000, true, 7000, false, true⟩).1.calibration_complete_at_ms = 0 ∧
    (loop calibrated_control_state
      ⟨3000, 1000, true, 7000, false, true⟩).1.zero_center_stable_at_ms = 0 ∧
    (∀ (raw : Nat) (scale : Int),
      map_raw_to_scaled raw (loop calibrated_control_state
        ⟨3000, 1000, true, 7000, false, true⟩).1.left_calibration scale = some 0 ∧
      map_raw_to_scaled raw (loop calibrated_control_state
        ⟨3000, 1000, true, 7000, false, true⟩).1.right_calibration scale = some 0) :=
  C9_recalibration_is_unconditional calibrated_control_state
    ⟨3000, 1000, true, 7000, false, true⟩ rfl (by decide) (by decide)

/-- C10 as stated fails: the trigger does not short-circuit the tick.  From a
calibrated control state, a tick with the trigger and raw samples
`(3000, 1000)` ends with the left record `{3000, 3000, 2048, false}`, not with
the initial record `{65535, 0, 2048, false}`. -/
theorem C10_counterexample :
    (loop calibrated_control_state
      ⟨3000, 1000, true, 7000, false, true⟩).1.left_calibration = ⟨3000, 3000, 2048, false⟩ ∧
    (loop calibrated_control_state
      ⟨3000, 1000, true, 7000, false, true⟩).1.left_calibration ≠
        reset_calibration calibrated_control_state.left_calibration ∧
    reset_calibration calibrated_control_state.left_calibration = ⟨65535, 0, 2048, false⟩ := by
  decide

/-- C10 (amended): the recalibration trigger resets the records and the same
tick then runs the FullRange logic on its samples.  For every prior state and
every pair of `uint16_t` raw samples, at the end of a tick in which the
trigger fires each `StickCalibration` record has `center = 2048`,
`ready = false` and `min = max =` that tick's raw sample of the axis, that is
the initial record `{65535, 0, 2048, false}` widened by `update_calibration`
with the sample. -/
theorem C10_trigger_resets_then_samples (s : CoreState) (inp : TickInput)
    (hb : inp.btn_pressed = true) (hl : inp.left_raw < 65536) (hr : inp.right_raw < 65536) :
    (loop s inp).1.left_calibration = ⟨inp.left_raw, inp.left_raw, 2048, false⟩ ∧
    (loop s inp).1.right_calibration = ⟨inp.right_raw, inp.right_raw, 2048, false⟩ ∧
    (loop s inp).1.left_calibration =
      update_calibration ⟨65535, 0, 2048, false⟩ inp.left_raw ∧
    (loop s inp).1.right_calibration =
      update_calibration ⟨65535, 0, 2048, false⟩ inp.right_raw := by
  rw [loop_on_recalibrate s inp hb hl hr]
  exact ⟨rfl, rfl, (update_after_reset ⟨65535, 0, 2048, false⟩ _ hl).symm,
    (update_after_reset ⟨65535, 0, 2048, false⟩ _ hr).symm⟩

theorem C10_trigger_resets_then_samples_witness :
    (loop (enter_calibration_mode initial_globals)
      ⟨100, 200, true, 0, false, false⟩).1.left_calibration = ⟨100, 100, 2048, false⟩ ∧
    (loop (enter_calibration_mode initial_globals)
      ⟨100, 200, true, 0, false, false⟩).1.right_calibration = ⟨200, 200, 2048, false⟩ ∧
    (loop (enter_calibration_mode initial_globals)
      ⟨100, 200, true, 0, false, false⟩).1.left_calibration =
      update_calibration ⟨65535, 0, 2048, false⟩ 100 ∧
    (loop (enter_calibration_mode initial_globals)
      ⟨100, 200, true, 0, false, false⟩).1.right_calibration =
      update_calibration ⟨65535, 0, 2048, false⟩ 200 :=
  C10_trigger_resets_then_samples (enter_calibration_mode initial_globals)
    ⟨100, 200, true, 0, false, false⟩ rfl (by decide) (by decide)

/-! ## One tick without the recalibrate trigger -/

/-- A control-mode tick without trigger leaves the globals as they are. -/
theorem loop_control (s : CoreState) (inp : TickInput)
    (hm : s.control_mode = ControlMode.Control) (hb : inp.btn_pressed = false) :
    (loop s inp).1 = s := by
  unfold loop
  have hne : ¬ s.control_mode = ControlMode.Calibration := by rw [hm]; decide
  simp only [hb, Bool.false_eq_true, if_false, hne]

/-- The FullRange branch of `loop`, as a function of the state before. -/
theorem loop_full_range (s : CoreState) (inp : TickInput)
    (hm : s.control_mode = ControlMode.Calibration)
    (hp : s.calibration_phase = CalibrationPhase.FullRange) (hb : inp.btn_pressed = false) :
    (loop s inp).1 =
      if (calibration_range_ok (update_calibration s.left_calibration inp.left_raw) &&
          calibration_range_ok (update_calibration s.right_calibration inp.right_raw)) = true then
        if s.calibration_complete_at_ms = 0 then
          { s with
            left_calibration := update_calibration s.left_calibration inp.left_raw
            right_calibration := update_calibration s.right_calibration inp.right_raw
            calibration_complete_at_ms := inp.now_ms }
        else if u32_sub inp.now_ms s.calibration_complete_at_ms ≥ kCalibrationHoldMs then
          { s with
            left_calibration := update_calibration s.left_calibration inp.left_raw
            right_calibration := update_calibration s.right_calibration inp.right_raw
            calibration_phase := CalibrationPhase.ZeroCenter
            calibration_complete_at_ms := 0
            zero_center_stable_at_ms := 0
            left_zero_center := reset_zero_center_state s.left_zero_center
            right_zero_center := reset_zero_center_state s.right_zero_center }
        else
          { s with
            left_calibration := update_calibration s.left_calibration inp.left_raw
            right_calibration := update_calibration s.right_calibration inp.right_raw }
      else
        { s with
          left_calibration := update_calibration s.left_calibration inp.left_raw
          right_calibration := update_calibration s.right_calibration inp.right_raw
          calibration_complete_at_ms := 0 } := by
  unfold loop
  simp only [hb, Bool.false_eq_true, if_false, hm, hp, if_true]
  split_ifs <;> rfl

/-- The ZeroCenter branch of `loop`, as a function of the state before. -/
theorem loop_zero_center (s : CoreState) (inp : TickInput)
    (hm : s.control_mode = ControlMode.Calibration)
    (hp : s.calibration_phase = CalibrationPhase.ZeroCenter) (hb : inp.btn_pressed = false) :
    (loop s inp).1 =
      if (zero_center_range_ok (update_zero_center_state s.left_zero_center inp.left_raw) &&
          zero_center_range_ok (update_zero_center_state s.right_zero_center inp.right_raw))
          = true then
        if s.zero_center_stable_at_ms = 0 then
          { s with
            left_zero_center := update_zero_center_state s.left_zero_center inp.left_raw
            right_zero_center := update_zero_center_state s.right_zero_center inp.right_raw
            zero_center_stable_at_ms := inp.now_ms }
        else if u32_sub inp.now_ms s.zero_center_stable_at_ms ≥ kCalibrationHoldMs then
          { s with
            left_zero_center := update_zero_center_state s.left_zero_center inp.left_raw
            right_zero_center := update_zero_center_state s.right_zero_center inp.right_raw
            left_calibration := finalize_calibration s.left_calibration
              (zero_center_average (update_zero_center_state s.left_zero_center inp.left_raw))
            right_calibration := finalize_calibration s.right_calibration
              (zero_center_average (update_zero_center_state s.right_zero_center inp.right_raw))
            control_mode := ControlMode.Control
            calibration_phase := CalibrationPhase.FullRange
            zero_center_stable_at_ms := 0 }
        else
          { s with
            left_zero_center := update_zero_center_state s.left_zero_center inp.left_raw
            right_zero_center := update_zero_center_state s.right_zero_center inp.right_raw }
      else
        { s with
          zero_center_stable_at_ms := 0
          left_zero_center := seed_zero_center_state s.left_zero_center inp.left_raw
          right_zero_center := seed_zero_center_state s.right_zero_center inp.right_raw } := by
  unfold loop
  have hne : ¬ CalibrationPhase.ZeroCenter = CalibrationPhase.FullRange := by decide
  simp only [hb, Bool.false_eq_true, if_false, hm, hp, if_true, hne]
  split_ifs <;> rfl

theorem update_calibration_min (cal : StickCalibration) (raw : Nat) :
    (update_calibration cal raw).min = min cal.min raw := by
  unfold update_calibration
  by_cases h1 : raw < cal.min <;> by_cases h2 : raw > cal.max <;> simp [h1, h2] <;> omega

theorem update_calibration_max (cal : StickCalibration) (raw : Nat) :
    (update_calibration cal raw).max = max cal.max raw := by
  unfold update_calibration
  by_cases h1 : raw < cal.min <;> by_cases h2 : raw > cal.max <;> simp [h1, h2] <;> omega

theorem calibration_range_ok_iff (cal : StickCalibration) :
    calibration_range_ok cal = true ↔ cal.min < cal.max ∧ 3072 ≤ cal.max - cal.min := by
  unfold calibration_range_ok kCalibRangeThreshold kRawResolution
  simp only [Bool.and_eq_true, decide_eq_true_eq]
  omega

theorem calibration_range_ok_update (cal : StickCalibration) (raw : Nat)
    (h : calibration_range_ok cal = true) :
    calibration_range_ok (update_calibration cal raw) = true := by
  rw [calibration_range_ok_iff] at h ⊢
  rw [update_calibration_min, update_calibration_max]
  omega

theorem mode_cases (m : ControlMode) (h : ¬ m = ControlMode.Calibration) :
    m = ControlMode.Control := by
  cases m
  · exact absurd rfl h
  · rfl

theorem mode_inv_enter (s : CoreState) : mode_inv (enter_calibration_mode s) := by
  unfold mode_inv enter_calibration_mode
  dsimp only
  refine ⟨fun _ => ⟨rfl, rfl⟩, fun h => ?_, fun h => ?_⟩
  · cases h
  · exact absurd rfl h

/-- `mode_inv` is kept by every tick, whatever the inputs. -/
theorem mode_inv_loop (s : CoreState) (inp : TickInput) (h : mode_inv s) :
    mode_inv (loop s inp).1 := by
  have ht : mode_inv (if inp.btn_pressed = true then enter_calibration_mode s else s) := by
    split_ifs
    · exact mode_inv_enter s
    · exact h
  unfold loop
  generalize (if inp.btn_pressed = true then enter_calibration_mode s else s) = t at ht ⊢
  obtain ⟨i1, i2, i3⟩ := ht
  dsimp only
  split_ifs with hm hp hrng hz hhold hz2 hstab hhold2
  all_goals unfold mode_inv
  all_goals dsimp only
  all_goals first
    | exact ⟨i1, i2, i3⟩
    | (simp_all [update_calibration_ready, finalize_calibration_range_ok]; done)
    | exact ⟨fun hc => (by cases hc), fun _ => ⟨rfl, rfl⟩, i3⟩

theorem mode_inv_run (inputs : List TickInput) :
    ∀ s : CoreState, mode_inv s → mode_inv (run s inputs) := by
  induction inputs with
  | nil => intro s h; exact h
  | cons inp rest ih => intro s h; exact ih (loop s inp).1 (mode_inv_loop s inp h)

theorem mode_inv_reachable (s : CoreState) (h : reachable s) : mode_inv s := by
  obtain ⟨inputs, rfl⟩ := h
  exact mode_inv_run inputs _ (mode_inv_enter initial_globals)

theorem u32_sub_eq (a b : Nat) (h1 : b ≤ a) (h2 : a < 4294967296) : u32_sub a b = a - b := by
  unfold u32_sub
  omega

/-- A FullRange tick without trigger advances to ZeroCenter exactly when both
widened ranges are wide enough, the hold timer is non-zero and 500 ms have
elapsed on it. -/
theorem full_range_advances_iff (s : CoreState) (inp : TickInput)
    (hm : s.control_mode = ControlMode.Calibration)
    (hp : s.calibration_phase = CalibrationPhase.FullRange) (hb : inp.btn_pressed = false) :
    (loop s inp).1.calibration_phase = CalibrationPhase.ZeroCenter ↔
      (calibration_range_ok (update_calibration s.left_calibration inp.left_raw) = true ∧
        calibration_range_ok (update_calibration s.right_calibration inp.right_raw) = true ∧
        s.calibration_complete_at_ms ≠ 0 ∧
        500 ≤ u32_sub inp.now_ms s.calibration_complete_at_ms) := by
  rw [loop_full_range s inp hm hp hb]
  unfold kCalibrationHoldMs
  split_ifs with h1 h2 h3 <;> simp_all

/-- A FullRange tick without trigger whose widened ranges are not both wide
enough stays in FullRange with the hold timer not started. -/
theorem full_range_not_ok (s : CoreState) (inp : TickInput)
    (hm : s.control_mode = ControlMode.Calibration)
    (hp : s.calibration_phase = CalibrationPhase.FullRange) (hb : inp.btn_pressed = false)
    (h : calibration_range_ok (update_calibration s.left_calibration inp.left_raw) = false ∨
      calibration_range_ok (update_calibration s.right_calibration inp.right_raw) = false) :
    (loop s inp).1.calibration_phase = CalibrationPhase.FullRange ∧
      (loop s inp).1.calibration_complete_at_ms = 0 := by
  rw [loop_full_range s inp hm hp hb]
  have hne : ¬ (calibration_range_ok (update_calibration s.left_calibration inp.left_raw) &&
      calibration_range_ok (update_calibration s.right_calibration inp.right_raw)) = true := by
    rcases h with h | h <;> simp [h]
  simp only [hne, if_false]
  exact ⟨hp, rfl⟩

theorem full_range_mode (s : CoreState) (inp : TickInput)
    (hm : s.control_mode = ControlMode.Calibration)
    (hp : s.calibration_phase = CalibrationPhase.FullRange) (hb : inp.btn_pressed = false) :
    (loop s inp).1.control_mode = ControlMode.Calibration := by
  rw [loop_full_range s inp hm hp hb]
  split_ifs <;> exact hm

/-- During the FullRange hold (timer running, both ranges wide enough) a tick
without trigger either advances to ZeroCenter or leaves the timer as it is. -/
theorem full_range_hold_step (s : CoreState) (inp : TickInput)
    (hm : s.control_mode = ControlMode.Calibration)
    (hp : s.calibration_phase = CalibrationPhase.FullRange)
    (ht : s.calibration_complete_at_ms ≠ 0)
    (hl : calibration_range_ok s.left_calibration = true)
    (hr : calibration_range_ok s.right_calibration = true)
    (hb : inp.btn_pressed = false) :
    ((loop s inp).1.calibration_phase = CalibrationPhase.ZeroCenter ∧
        500 ≤ u32_sub inp.now_ms s.calibration_complete_at_ms) ∨
    ((loop s inp).1.calibration_phase = CalibrationPhase.FullRange ∧
        (loop s inp).1.calibration_complete_at_ms = s.calibration_complete_at_ms ∧
        u32_sub inp.now_ms s.calibration_complete_at_ms < 500) := by
  rw [loop_full_range s inp hm hp hb]
  have hok : (calibration_range_ok (update_calibration s.left_calibration inp.left_raw) &&
      calibration_range_ok (update_calibration s.right_calibration inp.right_raw)) = true := by
    rw [calibration_range_ok_update _ _ hl, calibration_range_ok_update _ _ hr]; rfl
  simp only [hok, if_true, ht, if_false]
  unfold kCalibrationHoldMs
  split_ifs with h
  · exact Or.inl ⟨rfl, h⟩
  · exact Or.inr ⟨hp, rfl, by omega⟩

/-! ## Calibration machine: hold gating and widening -/

/-- C12: hold gating of FullRange -> ZeroCenter.  In a reachable state, on a
FullRange tick without recalibration trigger at clock reading `t`, the phase
becomes ZeroCenter if and only if, after widening with the tick's samples,
`calibration_range_ok` holds for both axes, the range hold timer is non-zero
(started on an earlier tick) and `t - timer >= 500` in `uint32_t` arithmetic
(plain subtraction while the clock has not wrapped); the phase never advances
on a tick before which `range_ok` did not yet hold for both axes, and never
while one axis fails `range_ok` (the timer is then not started); the mode
stays Calibration. -/
theorem C12_full_range_hold_gating (s : CoreState) (inp : TickInput) (hreach : reachable s)
    (hm : s.control_mode = ControlMode.Calibration)
    (hp : s.calibration_phase = CalibrationPhase.FullRange) (hb : inp.btn_pressed = false) :
    ((loop s inp).1.calibration_phase = CalibrationPhase.ZeroCenter ↔
      (calibration_range_ok (update_calibration s.left_calibration inp.left_raw) = true ∧
        calibration_range_ok (update_calibration s.right_calibration inp.right_raw) = true ∧
        s.calibration_complete_at_ms ≠ 0 ∧
        500 ≤ u32_sub inp.now_ms s.calibration_complete_at_ms)) ∧
    (s.calibration_complete_at_ms ≤ inp.now_ms → inp.now_ms < 4294967296 →
      u32_sub inp.now_ms s.calibration_complete_at_ms =
        inp.now_ms - s.calibration_complete_at_ms) ∧
    (¬ (calibration_range_ok s.left_calibration = true ∧
        calibration_range_ok s.right_calibration = true) →
      (loop s inp).1.calibration_phase = CalibrationPhase.FullRange) ∧
    ((calibration_range_ok (update_calibration s.left_calibration inp.left_raw) = false ∨
      calibration_range_ok (update_calibration s.right_calibration inp.right_raw) = false) →
      (loop s inp).1.calibration_phase = CalibrationPhase.FullRange ∧
        (loop s inp).1.calibration_complete_at_ms = 0) ∧
    (loop s inp).1.control_mode = ControlMode.Calibration := by
  have hiff := full_range_advances_iff s inp hm hp hb
  refine ⟨hiff, fun h1 h2 => u32_sub_eq _ _ h1 h2, fun hnot => ?_,
    fun h => full_range_not_ok s inp hm hp hb h, full_range_mode s inp hm hp hb⟩
  -- the timer of a reachable state runs only when both ranges are wide enough
  have htimer : s.calibration_complete_at_ms = 0 := by
    by_contra hne
    exact hnot ((mode_inv_reachable s hreach).2.2 hne)
  have hno : ¬ (loop s inp).1.calibration_phase = CalibrationPhase.ZeroCenter := by
    rw [hiff]
    intro h
    exact h.2.2.1 htimer
  exact phase_cases_full _ hno

theorem full_range_hold_state_reachable : reachable full_range_hold_state :=
  ⟨[tick_of 0 0 10, tick_of 4095 4095 20], by decide⟩

theorem C12_full_range_hold_gating_witness :
    (loop full_range_hold_state (tick_of 0 0 520)).1.calibration_phase =
      CalibrationPhase.ZeroCenter ∧
    (loop full_range_hold_state (tick_of 0 0 510)).1.calibration_phase =
      CalibrationPhase.FullRange ∧
    (loop full_range_hold_state (tick_of 0 0 520)).1.control_mode = ControlMode.Calibration :=
  ⟨(C12_full_range_hold_gating full_range_hold_state (tick_of 0 0 520)
      full_range_hold_state_reachable rfl rfl rfl).1.mpr (by decide),
    by decide,
    (C12_full_range_hold_gating full_range_hold_state (tick_of 0 0 520)
      full_range_hold_state_reachable rfl rfl rfl).2.2.2.2⟩

/-- C13 as stated fails: no state in phase FullRange with the range hold timer
running and `range_ok` true for both axes has a raw sample pair whose tick,
without recalibration trigger, ends in FullRange with the timer reset to
not-started. -/
theorem C13_counterexample :
    ¬ ∃ (s : CoreState) (inp : TickInput), reachable s ∧
      s.control_mode = ControlMode.Calibration ∧
      s.calibration_phase = CalibrationPhase.FullRange ∧
      s.calibration_complete_at_ms ≠ 0 ∧
      calibration_range_ok s.left_calibration = true ∧
      calibration_range_ok s.right_calibration = true ∧
      inp.btn_pressed = false ∧
      (loop s inp).1.calibration_phase = CalibrationPhase.FullRange ∧
      (loop s inp).1.calibration_complete_at_ms = 0 := by
  rintro ⟨s, inp, _, hm, hp, ht, hl, hr, hb, hp2, ht2⟩
  rcases full_range_hold_step s inp hm hp ht hl hr hb with ⟨h, _⟩ | ⟨_, h, _⟩
  · rw [hp2] at h; cases h
  · rw [ht2] at h; exact ht h.symm

/-- C13 (amended): no sample during the full-range hold restarts the hold
timer.  For every state in phase FullRange whose range hold timer is running
(`range_ok` true for both axes) and every raw sample pair, the tick consuming
it, with no recalibration trigger, either advances to ZeroCenter (500 ms have
elapsed on the timer) or leaves the machine in FullRange with the hold timer
unchanged, still running. -/
theorem C13_hold_timer_survives_samples (s : CoreState) (inp : TickInput)
    (hm : s.control_mode = ControlMode.Calibration)
    (hp : s.calibration_phase = CalibrationPhase.FullRange)
    (ht : s.calibration_complete_at_ms ≠ 0)
    (hl : calibration_range_ok s.left_calibration = true)
    (hr : calibration_range_ok s.right_calibration = true)
    (hb : inp.btn_pressed = false) :
    ((loop s inp).1.calibration_phase = CalibrationPhase.ZeroCenter ∧
        500 ≤ u32_sub inp.now_ms s.calibration_complete_at_ms) ∨
    ((loop s inp).1.calibration_phase = CalibrationPhase.FullRange ∧
        (loop s inp).1.calibration_complete_at_ms = s.calibration_complete_at_ms ∧
        (loop s inp).1.calibration_complete_at_ms ≠ 0 ∧
        u32_sub inp.now_ms s.calibration_complete_at_ms < 500) := by
  rcases full_range_hold_step s inp hm hp ht hl hr hb with h | ⟨h1, h2, h3⟩
  · exact Or.inl h
  · exact Or.inr ⟨h1, h2, by rw [h2]; exact ht, h3⟩

theorem C13_hold_timer_survives_samples_witness :
    ((loop full_range_hold_state (tick_of 2048 2048 300)).1.calibration_phase =
        CalibrationPhase.ZeroCenter ∧
        500 ≤ u32_sub (tick_of 2048 2048 300).now_ms
          full_range_hold_state.calibration_complete_at_ms) ∨
    ((loop full_range_hold_state (tick_of 2048 2048 300)).1.calibration_phase =
        CalibrationPhase.FullRange ∧
        (loop full_range_hold_state (tick_of 2048 2048 300)).1.calibration_complete_at_ms =
          full_range_hold_state.calibration_complete_at_ms ∧
        (loop full_range_hold_state (tick_of 2048 2048 300)).1.calibration_complete_at_ms ≠ 0 ∧
        u32_sub (tick_of 2048 2048 300).now_ms
          full_range_hold_state.calibration_complete_at_ms < 500) :=
  C13_hold_timer_survives_samples full_range_hold_state (tick_of 2048 2048 300) rfl rfl
    (by decide) (by decide) (by decide) rfl

/-- C14: `update_calibration` widens and never narrows.  For every calibration
record and every raw, afterwards `min' == min(min, raw)` and
`max' == max(max, raw)`, so `min' <= min`, `max' >= max` and
`min' <= raw <= max'`; `center` and `ready` are unchanged. -/
theorem C14_update_calibration_widens (cal : StickCalibration) (raw : Nat) :
    (update_calibration cal raw).min = min cal.min raw ∧
    (update_calibration cal raw).max = max cal.max raw ∧
    (update_calibration cal raw).min ≤ cal.min ∧
    cal.max ≤ (update_calibration cal raw).max ∧
    (update_calibration cal raw).min ≤ raw ∧
    raw ≤ (update_calibration cal raw).max ∧
    (update_calibration cal raw).center = cal.center ∧
    (update_calibration cal raw).ready = cal.ready := by
  rw [update_calibration_min, update_calibration_max]
  exact ⟨rfl, rfl, Nat.min_le_left _ _, Nat.le_max_left _ _, Nat.min_le_right _ _,
    Nat.le_max_right _ _, update_calibration_center cal raw, update_calibration_ready cal raw⟩

/-! ## Zero-center accumulator -/

theorem update_zero_center_state_nonempty (z : ZeroCenterState) (raw : Nat)
    (h : z.count ≠ 0) :
    update_zero_center_state z raw =
      ⟨min z.min raw, max z.max raw, (z.sum + raw) % 4294967296,
        (z.count + 1) % 4294967296⟩ := by
  unfold update_zero_center_state
  rw [if_neg h]
  by_cases h1 : raw < z.min <;> by_cases h2 : raw > z.max <;> simp [h1, h2] <;> omega

theorem update_zero_center_state_empty (z : ZeroCenterState) (raw : Nat) (h : z.count = 0) :
    update_zero_center_state z raw = ⟨raw, raw, raw, 1⟩ := by
  unfold update_zero_center_state seed_zero_center_state
  rw [if_pos h]

theorem zc_fold_nonempty : ∀ (ys : List Nat) (z : ZeroCenterState), z.count ≠ 0 →
    z.count + ys.length < 4294967296 → z.sum + ys.sum < 4294967296 →
    ys.foldl update_zero_center_state z =
      ⟨ys.foldl min z.min, ys.foldl max z.max, z.sum + ys.sum, z.count + ys.length⟩ := by
  intro ys
  induction ys with
  | nil => intro z _ _ _; rfl
  | cons y rest ih =>
    intro z hc hn hs
    simp only [List.foldl_cons, List.length_cons, List.sum_cons] at hn hs ⊢
    rw [update_zero_center_state_nonempty z y hc]
    have e1 : (z.sum + y) % 4294967296 = z.sum + y := Nat.mod_eq_of_lt (by omega)
    have e2 : (z.count + 1) % 4294967296 = z.count + 1 := Nat.mod_eq_of_lt (by omega)
    rw [e1, e2]
    rw [ih ⟨min z.min y, max z.max y, z.sum + y, z.count + 1⟩ (by simp)
      (by simp only []; omega) (by simp only []; omega)]
    simp only [ZeroCenterState.mk.injEq, true_and]
    constructor <;> omega

theorem foldl_min_le : ∀ (ys : List Nat) (m : Nat),
    ys.foldl min m ≤ m ∧ ∀ y ∈ ys, ys.foldl min m ≤ y := by
  intro ys
  induction ys with
  | nil => intro m; exact ⟨le_refl _, fun y hy => by cases hy⟩
  | cons a rest ih =>
    intro m
    simp only [List.foldl_cons]
    obtain ⟨h1, h2⟩ := ih (min m a)
    refine ⟨le_trans h1 (Nat.min_le_left _ _), fun y hy => ?_⟩
    rcases List.mem_cons.mp hy with rfl | hy
    · exact le_trans h1 (Nat.min_le_right _ _)
    · exact h2 y hy

theorem foldl_min_mem : ∀ (ys : List Nat) (m : Nat), ys.foldl min m ∈ m :: ys := by
  intro ys
  induction ys with
  | nil => intro m; simp
  | cons a rest ih =>
    intro m
    simp only [List.foldl_cons]
    have h := ih (min m a)
    rcases List.mem_cons.mp h with h | h
    · rw [h]
      rcases Nat.le_total m a with hle | hle
      · rw [Nat.min_eq_left hle]; simp
      · rw [Nat.min_eq_right hle]; simp
    · exact List.mem_cons_of_mem _ (List.mem_cons_of_mem _ h)

theorem le_foldl_max : ∀ (ys : List Nat) (m : Nat),
    m ≤ ys.foldl max m ∧ ∀ y ∈ ys, y ≤ ys.foldl max m := by
  intro ys
  induction ys with
  | nil => intro m; exact ⟨le_refl _, fun y hy => by cases hy⟩
  | cons a rest ih =>
    intro m
    simp only [List.foldl_cons]
    obtain ⟨h1, h2⟩ := ih (max m a)
    refine ⟨le_trans (Nat.le_max_left _ _) h1, fun y hy => ?_⟩
    rcases List.mem_cons.mp hy with rfl | hy
    · exact le_trans (Nat.le_max_right _ _) h1
    · exact h2 y hy

theorem foldl_max_mem : ∀ (ys : List Nat) (m : Nat), ys.foldl max m ∈ m :: ys := by
  intro ys
  induction ys with
  | nil => intro m; simp
  | cons a rest ih =>
    intro m
    simp only [List.foldl_cons]
    have h := ih (max m a)
    rcases List.mem_cons.mp h with h | h
    · rw [h]
      rcases Nat.le_total m a with hle | hle
      · rw [Nat.max_eq_right hle]; simp
      · rw [Nat.max_eq_left hle]; simp
    · exact List.mem_cons_of_mem _ (List.mem_cons_of_mem _ h)

/-- The accumulator built from a non-empty sample sequence that overflows
neither `sum` nor `count`. -/
theorem zc_accumulate_cons (x : Nat) (xs : List Nat)
    (hn : (x :: xs).length < 4294967296) (hs : (x :: xs).sum < 4294967296) :
    zc_accumulate (x :: xs) =
      ⟨xs.foldl min x, xs.foldl max x, (x :: xs).sum, (x :: xs).length⟩ := by
  unfold zc_accumulate
  simp only [List.foldl_cons, List.length_cons, List.sum_cons] at hn hs ⊢
  rw [update_zero_center_state_empty _ x rfl]
  rw [zc_fold_nonempty xs ⟨x, x, x, 1⟩ (by simp) (by simp only []; omega)
    (by simp only []; omega)]
  simp only [ZeroCenterState.mk.injEq, true_and]
  omega

/-- C15: zero-center accumulator semantics.  Starting from the cleared
accumulator and applying `update_zero_center_state` with any non-empty sample
sequence `s1..sn` (`n < 2^32`, sum `< 2^32`), the state is
`{min = minimum of the s_i, max = maximum of the s_i, sum = s1+...+sn,
count = n}`; the first update on an empty accumulator yields
`{min = max = sum = s1, count = 1}`; hence `count > 0` and `min <= max`. -/
theorem C15_accumulator_semantics (samples : List Nat) (hne : samples ≠ [])
    (hn : samples.length < 4294967296) (hs : samples.sum < 4294967296) :
    (zc_accumulate samples).min ∈ samples ∧
    (∀ x ∈ samples, (zc_accumulate samples).min ≤ x) ∧
    (zc_accumulate samples).max ∈ samples ∧
    (∀ x ∈ samples, x ≤ (zc_accumulate samples).max) ∧
    (zc_accumulate samples).sum = samples.sum ∧
    (zc_accumulate samples).count = samples.length ∧
    (∀ (z : ZeroCenterState) (s1 : Nat),
      update_zero_center_state (reset_zero_center_state z) s1 = ⟨s1, s1, s1, 1⟩) ∧
    0 < (zc_accumulate samples).count ∧
    (zc_accumulate samples).min ≤ (zc_accumulate samples).max := by
  cases samples with
  | nil => exact absurd rfl hne
  | cons x xs =>
    rw [zc_accumulate_cons x xs hn hs]
    dsimp only
    have hmin := foldl_min_le xs x
    have hmax := le_foldl_max xs x
    refine ⟨foldl_min_mem xs x, fun y hy => ?_, foldl_max_mem xs x, fun y hy => ?_, rfl, rfl,
      fun z s1 => update_zero_center_state_empty _ s1 rfl, by simp, le_trans hmin.1 hmax.1⟩
    · rcases List.mem_cons.mp hy with rfl | hy
      · exact hmin.1
      · exact hmin.2 y hy
    · rcases List.mem_cons.mp hy with rfl | hy
      · exact hmax.1
      · exact hmax.2 y hy

theorem C15_accumulator_semantics_witness :
    zc_accumulate [2050, 2046, 2048] = ⟨2046, 2050, 6144, 3⟩ ∧
    (zc_accumulate [2050, 2046, 2048]).sum = [2050, 2046, 2048].sum ∧
    (zc_accumulate [2050, 2046, 2048]).count = [2050, 2046, 2048].length :=
  ⟨by decide,
    (C15_accumulator_semantics [2050, 2046, 2048] (by decide) (by decide) (by decide)).2.2.2.2.1,
    (C15_accumulator_semantics [2050, 2046, 2048] (by decide) (by decide)
      (by decide)).2.2.2.2.2.1⟩

/-! ## Calibration machine: ZeroCenter and Control ticks -/

theorem zero_center_range_ok_false_iff (z : ZeroCenterState) :
    zero_center_range_ok z = false ↔ (z.count = 0 ∨ 30 ≤ (z.max : Int) - (z.min : Int)) := by
  unfold zero_center_range_ok kZeroCenterRangeLimit
  by_cases h : z.count = 0
  · simp [h]
  · simp only [h, if_false, decide_eq_false_iff_not, false_or]
    push_cast
    omega

/-- C16: reseed on instability.  On every ZeroCenter tick without
recalibration trigger in which, after accumulating the tick's samples, at
least one axis is not stable (its window is empty or has span `>= 30`), both
accumulators end the tick as the single-sample window of that tick's own raw
value (`{min = max = sum = raw, count = 1}`), the center hold timer is
not-started, and mode, phase, the range hold timer and both calibration
records are unchanged. -/
theorem C16_reseed_on_instability (s : CoreState) (inp : TickInput)
    (hm : s.control_mode = ControlMode.Calibration)
    (hp : s.calibration_phase = CalibrationPhase.ZeroCenter) (hb : inp.btn_pressed = false)
    (hu : zero_center_range_ok
        (update_zero_center_state s.left_zero_center inp.left_raw) = false ∨
      zero_center_range_ok
        (update_zero_center_state s.right_zero_center inp.right_raw) = false) :
    (loop s inp).1.left_zero_center = ⟨inp.left_raw, inp.left_raw, inp.left_raw, 1⟩ ∧
    (loop s inp).1.right_zero_center = ⟨inp.right_raw, inp.right_raw, inp.right_raw, 1⟩ ∧
    (loop s inp).1.zero_center_stable_at_ms = 0 ∧
    (loop s inp).1.control_mode = s.control_mode ∧
    (loop s inp).1.calibration_phase = s.calibration_phase ∧
    (loop s inp).1.calibration_complete_at_ms = s.calibration_complete_at_ms ∧
    (loop s inp).1.left_calibration = s.left_calibration ∧
    (loop s inp).1.right_calibration = s.right_calibration ∧
    (∀ z : ZeroCenterState, zero_center_range_ok z = false ↔
      (z.count = 0 ∨ 30 ≤ (z.max : Int) - (z.min : Int))) := by
  rw [loop_zero_center s inp hm hp hb]
  have hne : ¬ (zero_center_range_ok
        (update_zero_center_state s.left_zero_center inp.left_raw) &&
      zero_center_range_ok
        (update_zero_center_state s.right_zero_center inp.right_raw)) = true := by
    rcases hu with h | h <;> simp [h]
  simp only [hne, if_false]
  exact ⟨rfl, rfl, rfl, rfl, rfl, rfl, rfl, rfl, zero_center_range_ok_false_iff⟩

theorem C16_reseed_on_instability_witness :
    (loop zero_center_hold_state (tick_of 2100 2048 540)).1.left_zero_center =
      ⟨2100, 2100, 2100, 1⟩ ∧
    (loop zero_center_hold_state (tick_of 2100 2048 540)).1.right_zero_center =
      ⟨2048, 2048, 2048, 1⟩ ∧
    (loop zero_center_hold_state (tick_of 2100 2048 540)).1.zero_center_stable_at_ms = 0 :=
  ⟨(C16_reseed_on_instability zero_center_hold_state (tick_of 2100 2048 540) rfl rfl rfl
      (Or.inl (by decide))).1,
    (C16_reseed_on_instability zero_center_hold_state (tick_of 2100 2048 540) rfl rfl rfl
      (Or.inl (by decide))).2.1,
    (C16_reseed_on_instability zero_center_hold_state (tick_of 2100 2048 540) rfl rfl rfl
      (Or.inl (by decide))).2.2.1⟩

/-- C17: Control is terminal until reset.  For every state with
`mode == Control` and every tick without recalibration trigger (any raw pair,
any boost buttons, any clock reading), the whole core state (mode, phase, both
calibration records, both accumulators, both hold timers) is unchanged by the
tick. -/
theorem C17_control_is_terminal (s : CoreState) (inp : TickInput)
    (hm : s.control_mode = ControlMode.Control) (hb : inp.btn_pressed = false) :
    (loop s inp).1 = s :=
  loop_control s inp hm hb

theorem C17_control_is_terminal_witness :
    (loop calibrated_control_state ⟨4095, 0, false, 123456, true, false⟩).1 =
      calibrated_control_state :=
  C17_control_is_terminal calibrated_control_state ⟨4095, 0, false, 123456, true, false⟩
    rfl rfl

/-! ## Monotonicity of the range test and the mode/readiness invariant -/

/-- A tick without trigger keeps `calibration_range_ok` on both records. -/
theorem loop_keeps_range_ok (s : CoreState) (inp : TickInput) (hb : inp.btn_pressed = false)
    (hl : calibration_range_ok s.left_calibration = true)
    (hr : calibration_range_ok s.right_calibration = true) :
    calibration_range_ok (loop s inp).1.left_calibration = true ∧
      calibration_range_ok (loop s inp).1.right_calibration = true := by
  have ul := calibration_range_ok_update s.left_calibration inp.left_raw hl
  have ur := calibration_range_ok_update s.right_calibration inp.right_raw hr
  by_cases hm : s.control_mode = ControlMode.Calibration
  · by_cases hp : s.calibration_phase = CalibrationPhase.FullRange
    · rw [loop_full_range s inp hm hp hb]
      split_ifs <;> exact ⟨ul, ur⟩
    · rw [loop_zero_center s inp hm (phase_cases _ hp) hb]
      split_ifs <;> exact ⟨hl, hr⟩
  · rw [loop_control s inp (mode_cases _ hm) hb]
    exact ⟨hl, hr⟩

theorem run_keeps_range_ok (inputs : List TickInput) :
    ∀ s : CoreState, no_trigger inputs →
      calibration_range_ok s.left_calibration = true →
      calibration_range_ok s.right_calibration = true →
      calibration_range_ok (run s inputs).left_calibration = true ∧
        calibration_range_ok (run s inputs).right_calibration = true := by
  induction inputs with
  | nil => intro s _ hl hr; exact ⟨hl, hr⟩
  | cons inp rest ih =>
    intro s hn hl hr
    have h := loop_keeps_range_ok s inp (hn inp (List.mem_cons_self _ _)) hl hr
    exact ih (loop s inp).1 (fun i hi => hn i (List.mem_cons_of_mem _ hi)) h.1 h.2

/-- C19: `calibration_range_ok` is monotone under `update_calibration`: for
every calibration record and every raw, if `calibration_range_ok` holds before
`update_calibration` then it holds after; so once both axes satisfy
`range_ok`, no later sample (any sequence of ticks without recalibration
trigger, in particular within the FullRange phase) makes `range_ok` false. -/
theorem C19_range_ok_monotone :
    (∀ (cal : StickCalibration) (raw : Nat), calibration_range_ok cal = true →
      calibration_range_ok (update_calibration cal raw) = true) ∧
    (∀ (s : CoreState) (inputs : List TickInput), no_trigger inputs →
      calibration_range_ok s.left_calibration = true →
      calibration_range_ok s.right_calibration = true →
      calibration_range_ok (run s inputs).left_calibration = true ∧
        calibration_range_ok (run s inputs).right_calibration = true) :=
  ⟨calibration_range_ok_update, fun s inputs => run_keeps_range_ok inputs s⟩

/-- The serial line of a tick: commands are written exactly on a control-mode
tick without trigger, and are computed from the records of the state. -/
theorem loop_output (s : CoreState) (inp : TickInput) (c : Option Int × Option Int)
    (h : (loop s inp).2 = some c) :
    inp.btn_pressed = false ∧ s.control_mode = ControlMode.Control ∧
    c = (map_raw_to_scaled inp.left_raw s.left_calibration
          (if inp.option_button = true then kBoostScale else kNormalScale),
        map_raw_to_scaled inp.right_raw s.right_calibration
          (if inp.mode_button = true then kBoostScale else kNormalScale)) := by
  unfold loop at h
  cases hb : inp.btn_pressed
  · simp only [hb, Bool.false_eq_true, if_false] at h
    by_cases hm : s.control_mode = ControlMode.Calibration
    · simp only [hm, if_true] at h
      split_ifs at h
    · simp only [hm, if_false, Option.some.injEq] at h
      exact ⟨rfl, mode_cases _ hm, h.symm⟩
  · simp only [hb, if_true] at h
    have hm : (enter_calibration_mode s).control_mode = ControlMode.Calibration := rfl
    simp only [hm, if_true] at h
    split_ifs at h

/-- C20: mode/readiness invariant.  In every state reachable from
`enter_calibration_mode` by any sequence of ticks, `left.ready == right.ready`,
and `mode == Control` holds if and only if both calibration records are
ready; so a state in Calibration mode has no ready record, and every command
written by a tick is computed, in Control mode, from two ready records. -/
theorem C20_mode_readiness_invariant (s : CoreState) (hreach : reachable s) :
    s.left_calibration.ready = s.right_calibration.ready ∧
    (s.control_mode = ControlMode.Control ↔
      (s.left_calibration.ready = true ∧ s.right_calibration.ready = true)) ∧
    (s.control_mode = ControlMode.Calibration →
      s.left_calibration.ready = false ∧ s.right_calibration.ready = false) ∧
    (∀ (inp : TickInput) (c : Option Int × Option Int), (loop s inp).2 = some c →
      s.control_mode = ControlMode.Control ∧
      s.left_calibration.ready = true ∧ s.right_calibration.ready = true ∧
      c = (map_raw_to_scaled inp.left_raw s.left_calibration
            (if inp.option_button = true then kBoostScale else kNormalScale),
          map_raw_to_scaled inp.right_raw s.right_calibration
            (if inp.mode_button = true then kBoostScale else kNormalScale))) := by
  obtain ⟨i1, i2, _⟩ := mode_inv_reachable s hreach
  have hready : s.left_calibration.ready = s.right_calibration.ready := by
    cases hm : s.control_mode
    · rw [(i1 hm).1, (i1 hm).2]
    · rw [(i2 hm).1, (i2 hm).2]
  refine ⟨hready, ⟨i2, fun h => ?_⟩, i1, fun inp c hc => ?_⟩
  · cases hm : s.control_mode
    · have := (i1 hm).1
      rw [h.1] at this
      cases this
    · rfl
  · obtain ⟨_, hm, hceq⟩ := loop_output s inp c hc
    exact ⟨hm, (i2 hm).1, (i2 hm).2, hceq⟩

theorem C20_mode_readiness_invariant_witness :
    full_range_hold_state.left_calibration.ready =
      full_range_hold_state.right_calibration.ready ∧
    (full_range_hold_state.control_mode = ControlMode.Calibration →
      full_range_hold_state.left_calibration.ready = false ∧
        full_range_hold_state.right_calibration.ready = false) :=
  ⟨(C20_mode_readiness_invariant full_range_hold_state ⟨[tick_of 0 0 10, tick_of 4095 4095 20],
      by decide⟩).1,
    (C20_mode_readiness_invariant full_range_hold_state ⟨[tick_of 0 0 10, tick_of 4095 4095 20],
      by decide⟩).2.2.1⟩

/-! ## Finalisation and the zero-center window -/

theorem holds_samples_seed (z : ZeroCenterState) (raw : Nat) (h : raw < 4294967296) :
    holds_samples (seed_zero_center_state z raw) [raw] := by
  unfold holds_samples seed_zero_center_state
  simp only [List.mem_singleton, List.sum_singleton, List.length_singleton, forall_eq]
  exact ⟨by simp, trivial, le_refl _, trivial, le_refl _, (Nat.mod_eq_of_lt h).symm, trivial⟩

theorem holds_samples_update (z : ZeroCenterState) (w : List Nat) (raw : Nat)
    (hc : z.count ≠ 0) (h : holds_samples z w) :
    holds_samples (update_zero_center_state z raw) (w ++ [raw]) := by
  rw [update_zero_center_state_nonempty z raw hc]
  obtain ⟨_, h1, h2, h3, h4, h5, h6⟩ := h
  unfold holds_samples
  simp only [List.mem_append, List.mem_singleton, List.sum_append, List.sum_singleton,
    List.length_append, List.length_singleton]
  refine ⟨by simp, ?_, ?_, ?_, ?_, ?_, ?_⟩
  · rcases Nat.le_total z.min raw with hle | hle
    · rw [Nat.min_eq_left hle]; exact Or.inl h1
    · rw [Nat.min_eq_right hle]; exact Or.inr rfl
  · intro y hy
    rcases hy with hy | rfl
    · exact le_trans (Nat.min_le_left _ _) (h2 y hy)
    · exact Nat.min_le_right _ _
  · rcases Nat.le_total z.max raw with hle | hle
    · rw [Nat.max_eq_right hle]; exact Or.inr rfl
    · rw [Nat.max_eq_left hle]; exact Or.inl h3
  · intro y hy
    rcases hy with hy | rfl
    · exact le_trans (h4 y hy) (Nat.le_max_left _ _)
    · exact Nat.le_max_right _ _
  · rw [h5]; omega
  · rw [h6]; omega

theorem zero_center_range_ok_count (z : ZeroCenterState) (h : zero_center_range_ok z = true) :
    z.count ≠ 0 := by
  intro hc
  unfold zero_center_range_ok at h
  rw [if_pos hc] at h
  cases h

theorem window_inv_update (z : ZeroCenterState) (w : List Nat) (raw : Nat)
    (hraw : raw < 4294967296) (h : window_inv z w)
    (hc : (update_zero_center_state z raw).count ≠ 0) :
    window_inv (update_zero_center_state z raw) (window_update z w raw) := by
  unfold window_update
  by_cases h0 : z.count = 0
  · rw [if_pos h0]
    refine Or.inr ⟨hc, ?_⟩
    unfold update_zero_center_state
    rw [if_pos h0]
    exact holds_samples_seed z raw hraw
  · rw [if_neg h0]
    rcases h with ⟨_, h⟩ | ⟨_, h⟩
    · exact absurd h h0
    · exact Or.inr ⟨hc, holds_samples_update z w raw h0 h⟩

theorem window_inv_seed (z : ZeroCenterState) (raw : Nat) (hraw : raw < 4294967296) :
    window_inv (seed_zero_center_state z raw) [raw] :=
  Or.inr ⟨by unfold seed_zero_center_state; simp, holds_samples_seed z raw hraw⟩

theorem window_inv_reset (z : ZeroCenterState) : window_inv (reset_zero_center_state z) [] :=
  Or.inl ⟨rfl, rfl⟩

/-- Every tick keeps each accumulator tied to its window. -/
theorem window_inv_loop (s : CoreState) (inp : TickInput) (w : List Nat × List Nat)
    (hl : inp.left_raw ≤ 4095) (hr : inp.right_raw ≤ 4095)
    (h1 : window_inv s.left_zero_center w.1) (h2 : window_inv s.right_zero_center w.2) :
    window_inv (loop s inp).1.left_zero_center (loop_windows s inp w).1 ∧
      window_inv (loop s inp).1.right_zero_center (loop_windows s inp w).2 := by
  unfold loop_windows
  cases hb : inp.btn_pressed
  · simp only [Bool.false_eq_true, if_false]
    by_cases hm : s.control_mode = ControlMode.Calibration
    · simp only [hm, if_true]
      by_cases hp : s.calibration_phase = CalibrationPhase.FullRange
      · simp only [hp, if_true]
        rw [loop_full_range s inp hm hp hb]
        split_ifs with c1 c2 c3 c4 c5 c6
        all_goals (try dsimp only)
        all_goals first
          | exact ⟨h1, h2⟩
          | exact ⟨window_inv_reset _, window_inv_reset _⟩
          | (exfalso; simp_all)
      · simp only [hp, if_false]
        rw [loop_zero_center s inp hm (phase_cases _ hp) hb]
        by_cases hst : (zero_center_range_ok
            (update_zero_center_state s.left_zero_center inp.left_raw) &&
          zero_center_range_ok
            (update_zero_center_state s.right_zero_center inp.right_raw)) = true
        · simp only [hst, if_true]
          rw [Bool.and_eq_true] at hst
          have k1 := window_inv_update s.left_zero_center w.1 inp.left_raw (by omega) h1
            (zero_center_range_ok_count _ hst.1)
          have k2 := window_inv_update s.right_zero_center w.2 inp.right_raw (by omega) h2
            (zero_center_range_ok_count _ hst.2)
          split_ifs <;> exact ⟨k1, k2⟩
        · simp only [hst, if_false]
          exact ⟨window_inv_seed s.left_zero_center inp.left_raw (by omega),
            window_inv_seed s.right_zero_center inp.right_raw (by omega)⟩
    · simp only [hm, if_false]
      rw [loop_control s inp (mode_cases _ hm) hb]
      exact ⟨h1, h2⟩
  · simp only [if_true]
    rw [loop_on_recalibrate s inp hb (by omega) (by omega)]
    exact ⟨Or.inl ⟨rfl, rfl⟩, Or.inl ⟨rfl, rfl⟩⟩

theorem window_inv_run (inputs : List TickInput) :
    ∀ (s : CoreState) (w : List Nat × List Nat),
      (∀ inp ∈ inputs, inp.left_raw ≤ 4095 ∧ inp.right_raw ≤ 4095) →
      window_inv s.left_zero_center w.1 → window_inv s.right_zero_center w.2 →
      window_inv (run s inputs).left_zero_center (run_windows s w inputs).1 ∧
        window_inv (run s inputs).right_zero_center (run_windows s w inputs).2 := by
  induction inputs with
  | nil => intro s w _ h1 h2; exact ⟨h1, h2⟩
  | cons inp rest ih =>
    intro s w hv h1 h2
    have hraw := hv inp (List.mem_cons_self _ _)
    have h := window_inv_loop s inp w hraw.1 hraw.2 h1 h2
    exact ih (loop s inp).1 (loop_windows s inp w)
      (fun i hi => hv i (List.mem_cons_of_mem _ hi)) h.1 h.2

theorem zero_center_average_eq (z : ZeroCenterState) (hok : acc_ok z) (hc : z.count ≠ 0) :
    zero_center_average z = z.sum / z.count := by
  unfold zero_center_average to_uint16
  rw [if_neg hc]
  obtain ⟨_, h2⟩ := hok
  have h3 : z.sum ≤ z.count * 4095 := by omega
  have h4 : z.sum / z.count ≤ 4095 := Nat.div_le_of_le_mul h3
  exact Nat.mod_eq_of_lt (by omega)

theorem window_update_ends (z : ZeroCenterState) (w : List Nat) (raw : Nat) :
    ∃ pre : List Nat, window_update z w raw = pre ++ [raw] := by
  unfold window_update
  split_ifs
  · exact ⟨[], rfl⟩
  · exact ⟨w, rfl⟩

/-- What a ZeroCenter tick that ends in control mode did: the pair was stable,
the hold timer was running and 500 ms had elapsed on it. -/
theorem zero_center_finalises (s : CoreState) (inp : TickInput)
    (hm : s.control_mode = ControlMode.Calibration)
    (hp : s.calibration_phase = CalibrationPhase.ZeroCenter) (hb : inp.btn_pressed = false)
    (ht : (loop s inp).1.control_mode = ControlMode.Control) :
    (zero_center_range_ok (update_zero_center_state s.left_zero_center inp.left_raw) &&
      zero_center_range_ok (update_zero_center_state s.right_zero_center inp.right_raw))
      = true ∧
    s.zero_center_stable_at_ms ≠ 0 ∧
    u32_sub inp.now_ms s.zero_center_stable_at_ms ≥ kCalibrationHoldMs := by
  rw [loop_zero_center s inp hm hp hb] at ht
  have hne : ¬ ControlMode.Calibration = ControlMode.Control := by decide
  split_ifs at ht with h1 h2 h3
  · rw [hm] at ht; exact absurd ht hne
  · exact ⟨h1, h2, h3⟩
  · rw [hm] at ht; exact absurd ht hne
  · rw [hm] at ht; exact absurd ht hne

theorem loop_trigger_mode (s : CoreState) (inp : TickInput) (hb : inp.btn_pressed = true)
    (hl : inp.left_raw < 65536) (hr : inp.right_raw < 65536) :
    (loop s inp).1.control_mode = ControlMode.Calibration := by
  rw [loop_on_recalibrate s inp hb hl hr]

/-- C11: finalisation.  Let `s` be the state and `w` the windows (the samples
each accumulator has received since it was last seeded) reached from the
initial state by ticks with raw samples in `[0, 4095]`.  On every ZeroCenter
tick from `s` that transitions to Control, each axis gets `ready == true` and
`center == sum / count` (integer division) of that axis' accumulator; the
accumulator has taken in the tick's own sample and holds exactly the samples
of its window, which ends with the current tick's sample; `min` and `max` of
the calibration record are unchanged by the transition. -/
theorem C11_finalisation (inputs : List TickInput) (inp : TickInput) (s : CoreState)
    (w : List Nat × List Nat)
    (hv : ∀ i ∈ inputs, i.left_raw ≤ 4095 ∧ i.right_raw ≤ 4095)
    (hl : inp.left_raw ≤ 4095) (hr : inp.right_raw ≤ 4095)
    (hs : run (enter_calibration_mode initial_globals) inputs = s)
    (hw : run_windows (enter_calibration_mode initial_globals) ([], []) inputs = w)
    (hm : s.control_mode = ControlMode.Calibration)
    (hp : s.calibration_phase = CalibrationPhase.ZeroCenter)
    (ht : (loop s inp).1.control_mode = ControlMode.Control) :
    (loop s inp).1.left_calibration.ready = true ∧
    (loop s inp).1.right_calibration.ready = true ∧
    (loop s inp).1.left_calibration.center =
      (loop s inp).1.left_zero_center.sum / (loop s inp).1.left_zero_center.count ∧
    (loop s inp).1.right_calibration.center =
      (loop s inp).1.right_zero_center.sum / (loop s inp).1.right_zero_center.count ∧
    (loop s inp).1.left_zero_center =
      update_zero_center_state s.left_zero_center inp.left_raw ∧
    (loop s inp).1.right_zero_center =
      update_zero_center_state s.right_zero_center inp.right_raw ∧
    holds_samples (loop s inp).1.left_zero_center (loop_windows s inp w).1 ∧
    holds_samples (loop s inp).1.right_zero_center (loop_windows s inp w).2 ∧
    (∃ pre : List Nat, (loop_windows s inp w).1 = pre ++ [inp.left_raw]) ∧
    (∃ pre : List Nat, (loop_windows s inp w).2 = pre ++ [inp.right_raw]) ∧
    (loop s inp).1.left_calibration.min = s.left_calibration.min ∧
    (loop s inp).1.left_calibration.max = s.left_calibration.max ∧
    (loop s inp).1.right_calibration.min = s.right_calibration.min ∧
    (loop s inp).1.right_calibration.max = s.right_calibration.max := by
  -- the trigger cannot have fired: the tick would end in calibration mode
  have hb : inp.btn_pressed = false := by
    cases hb : inp.btn_pressed
    · rfl
    · rw [loop_trigger_mode s inp hb (by omega) (by omega)] at ht
      cases ht
  obtain ⟨hst, htimer, hhold⟩ := zero_center_finalises s inp hm hp hb ht
  -- invariants of the reachable state
  have hinv : core_inv s := by
    rw [← hs]
    exact core_inv_run inputs _ (core_inv_enter initial_globals) hv
  have hwin := window_inv_run inputs (enter_calibration_mode initial_globals) ([], []) hv
    (Or.inl ⟨rfl, rfl⟩) (Or.inl ⟨rfl, rfl⟩)
  rw [hs, hw] at hwin
  have hwin2 := window_inv_loop s inp w hl hr hwin.1 hwin.2
  obtain ⟨_, _, _, _, _, a6, a7⟩ := hinv
  have okl := acc_ok_update s.left_zero_center inp.left_raw a6 hl
  have okr := acc_ok_update s.right_zero_center inp.right_raw a7 hr
  have hst2 := hst
  rw [Bool.and_eq_true] at hst2
  have cl := zero_center_range_ok_count _ hst2.1
  have cr := zero_center_range_ok_count _ hst2.2
  -- the windows of a stable ZeroCenter tick
  have hwl : (loop_windows s inp w).1 = window_update s.left_zero_center w.1 inp.left_raw := by
    unfold loop_windows
    have hne : ¬ CalibrationPhase.ZeroCenter = CalibrationPhase.FullRange := by decide
    simp only [hb, Bool.false_eq_true, if_false, hm, hp, hne, hst, if_true]
  have hwr : (loop_windows s inp w).2 = window_update s.right_zero_center w.2 inp.right_raw := by
    unfold loop_windows
    have hne : ¬ CalibrationPhase.ZeroCenter = CalibrationPhase.FullRange := by decide
    simp only [hb, Bool.false_eq_true, if_false, hm, hp, hne, hst, if_true]
  -- the state after the finalising tick
  have hloop := loop_zero_center s inp hm hp hb
  simp only [hst, if_true, htimer, if_false, hhold] at hloop
  have el : (loop s inp).1.left_zero_center =
      update_zero_center_state s.left_zero_center inp.left_raw := by rw [hloop]
  have er : (loop s inp).1.right_zero_center =
      update_zero_center_state s.right_zero_center inp.right_raw := by rw [hloop]
  have hhl : holds_samples (loop s inp).1.left_zero_center (loop_windows s inp w).1 := by
    rcases hwin2.1 with ⟨_, h0⟩ | ⟨_, h⟩
    · rw [el] at h0; exact absurd h0 cl
    · exact h
  have hhr : holds_samples (loop s inp).1.right_zero_center (loop_windows s inp w).2 := by
    rcases hwin2.2 with ⟨_, h0⟩ | ⟨_, h⟩
    · rw [er] at h0; exact absurd h0 cr
    · exact h
  refine ⟨by rw [hloop]; rfl, by rw [hloop]; rfl, ?_, ?_, el, er, hhl, hhr, ?_, ?_,
    by rw [hloop]; rfl, by rw [hloop]; rfl, by rw [hloop]; rfl, by rw [hloop]; rfl⟩
  · rw [el]
    rw [hloop]
    exact zero_center_average_eq _ okl cl
  · rw [er]
    rw [hloop]
    exact zero_center_average_eq _ okr cr
  · rw [hwl]; exact window_update_ends _ _ _
  · rw [hwr]; exact window_update_ends _ _ _

theorem C11_finalisation_witness :
    (loop (run (enter_calibration_mode initial_globals) short_calibration_inputs)
      (tick_of 2046 2049 1030)).1.left_calibration = ⟨0, 4095, 2048, true⟩ ∧
    (loop (run (enter_calibration_mode initial_globals) short_calibration_inputs)
      (tick_of 2046 2049 1030)).1.right_calibration.ready = true ∧
    loop_windows (run (enter_calibration_mode initial_globals) short_calibration_inputs)
      (tick_of 2046 2049 1030)
      (run_windows (enter_calibration_mode initial_globals) ([], []) short_calibration_inputs) =
        ([2050, 2046], [2047, 2049]) ∧
    holds_samples (loop (run (enter_calibration_mode initial_globals) short_calibration_inputs)
      (tick_of 2046 2049 1030)).1.left_zero_center
      (loop_windows (run (enter_calibration_mode initial_globals) short_calibration_inputs)
        (tick_of 2046 2049 1030)
        (run_windows (enter_calibration_mode initial_globals) ([], [])
          short_calibration_inputs)).1 :=
  ⟨by decide,
    (C11_finalisation short_calibration_inputs (tick_of 2046 2049 1030)
      (run (enter_calibration_mode initial_globals) short_calibration_inputs)
      (run_windows (enter_calibration_mode initial_globals) ([], []) short_calibration_inputs)
      (by decide) (by decide) (by decide) rfl rfl (by decide) (by decide) (by decide)).2.1,
    by decide,
    (C11_finalisation short_calibration_inputs (tick_of 2046 2049 1030)
      (run (enter_calibration_mode initial_globals) short_calibration_inputs)
      (run_windows (enter_calibration_mode initial_globals) ([], []) short_calibration_inputs)
      (by decide) (by decide) (by decide) rfl rfl (by decide) (by decide)
      (by decide)).2.2.2.2.2.2.1⟩

/-! ## End-to-end scenario -/

theorem update_full_range (r : Nat) (b : Bool) (h : r ≤ 4095) :
    update_calibration ⟨0, 4095, 2048, b⟩ r = ⟨0, 4095, 2048, b⟩ := by
  unfold update_calibration
  have h2 : ¬ r > 4095 := by omega
  simp [h2]

theorem step_fr_first (t : Nat) :
    (loop (enter_calibration_mode initial_globals) (tick_of 0 0 t)).1 =
      { fr_state 0 with
        left_calibration := ⟨0, 0, 2048, false⟩
        right_calibration := ⟨0, 0, 2048, false⟩ } := by
  rw [loop_full_range _ _ rfl rfl rfl]
  rfl

theorem step_fr_second (t : Nat) :
    (loop { fr_state 0 with
        left_calibration := ⟨0, 0, 2048, false⟩
        right_calibration := ⟨0, 0, 2048, false⟩ } (tick_of 4095 4095 t)).1 = fr_state t := by
  rw [loop_full_range _ _ rfl rfl rfl]
  rfl

theorem step_fr_hold (t0 r t : Nat) (hr : r ≤ 4095) (h0 : t0 ≠ 0) (ht : u32_sub t t0 < 500) :
    (loop (fr_state t0) (tick_of r r t)).1 = fr_state t0 := by
  rw [loop_full_range _ _ rfl rfl rfl]
  have e : (fr_state t0).left_calibration = ⟨0, 4095, 2048, false⟩ := rfl
  have e2 : (fr_state t0).right_calibration = ⟨0, 4095, 2048, false⟩ := rfl
  have e3 : (fr_state t0).calibration_complete_at_ms = t0 := rfl
  have e4 : (tick_of r r t).left_raw = r := rfl
  have e5 : (tick_of r r t).right_raw = r := rfl
  have e6 : (tick_of r r t).now_ms = t := rfl
  have hok : calibration_range_ok ⟨0, 4095, 2048, false⟩ = true := by decide
  have hn : ¬ u32_sub t t0 ≥ kCalibrationHoldMs := by unfold kCalibrationHoldMs; omega
  simp only [e, e2, e3, e4, e5, e6, update_full_range r false hr, hok, Bool.and_self, if_true,
    h0, hn, if_false]
  rfl

theorem step_fr_advance (t0 r t : Nat) (hr : r ≤ 4095) (h0 : t0 ≠ 0)
    (ht : 500 ≤ u32_sub t t0) :
    (loop (fr_state t0) (tick_of r r t)).1 = zc_state ⟨65535, 0, 0, 0⟩ 0 := by
  rw [loop_full_range _ _ rfl rfl rfl]
  have e : (fr_state t0).left_calibration = ⟨0, 4095, 2048, false⟩ := rfl
  have e2 : (fr_state t0).right_calibration = ⟨0, 4095, 2048, false⟩ := rfl
  have e3 : (fr_state t0).calibration_complete_at_ms = t0 := rfl
  have e4 : (tick_of r r t).left_raw = r := rfl
  have e5 : (tick_of r r t).right_raw = r := rfl
  have e6 : (tick_of r r t).now_ms = t := rfl
  have hok : calibration_range_ok ⟨0, 4095, 2048, false⟩ = true := by decide
  have hn : u32_sub t t0 ≥ kCalibrationHoldMs := by unfold kCalibrationHoldMs; omega
  simp only [e, e2, e3, e4, e5, e6, update_full_range r false hr, hok, Bool.and_self, if_true,
    h0, hn, if_false]
  rfl

theorem zero_center_range_ok_single (r c : Nat) (hc : c ≠ 0) (s : Nat) :
    zero_center_range_ok ⟨r, r, s, c⟩ = true := by
  unfold zero_center_range_ok kZeroCenterRangeLimit
  simp [hc]

/-- A ZeroCenter tick of the scenario, as a function of the accumulator `z`
the two axes share and of the sample `r` both read. -/
theorem loop_zc_state (z : ZeroCenterState) (t0 r t : Nat) :
    (loop (zc_state z t0) (tick_of r r t)).1 =
      if zero_center_range_ok (update_zero_center_state z r) = true then
        if t0 = 0 then zc_state (update_zero_center_state z r) t
        else if u32_sub t t0 ≥ kCalibrationHoldMs then
          { ctl_state (update_zero_center_state z r) with
            left_calibration :=
              ⟨0, 4095, zero_center_average (update_zero_center_state z r), true⟩
            right_calibration :=
              ⟨0, 4095, zero_center_average (update_zero_center_state z r), true⟩ }
        else zc_state (update_zero_center_state z r) t0
      else zc_state ⟨r, r, r, 1⟩ 0 := by
  rw [loop_zero_center _ _ rfl rfl rfl]
  have e1 : (zc_state z t0).left_zero_center = z := rfl
  have e2 : (zc_state z t0).right_zero_center = z := rfl
  have e3 : (zc_state z t0).zero_center_stable_at_ms = t0 := rfl
  have e4 : (tick_of r r t).left_raw = r := rfl
  have e5 : (tick_of r r t).right_raw = r := rfl
  have e6 : (tick_of r r t).now_ms = t := rfl
  simp only [e1, e2, e3, e4, e5, e6, Bool.and_self]
  split_ifs <;> rfl

theorem step_zc_seed (r t : Nat) :
    (loop (zc_state ⟨65535, 0, 0, 0⟩ 0) (tick_of r r t)).1 = zc_state ⟨r, r, r, 1⟩ t := by
  rw [loop_zc_state, update_zero_center_state_empty _ r rfl,
    zero_center_range_ok_single r 1 (by decide) r]
  simp

theorem step_zc_unstable (a b t0 t : Nat) (h : a + 30 ≤ b ∨ b + 30 ≤ a) :
    (loop (zc_state ⟨a, a, a, 1⟩ t0) (tick_of b b t)).1 = zc_state ⟨b, b, b, 1⟩ 0 := by
  rw [loop_zc_state, update_zero_center_state_nonempty ⟨a, a, a, 1⟩ b (by simp)]
  have hno : zero_center_range_ok
      ⟨min a b, max a b, (a + b) % 4294967296, (1 + 1) % 4294967296⟩ = false := by
    rw [zero_center_range_ok_false_iff]
    right
    simp only []
    push_cast
    omega
  rw [hno]
  simp

theorem update_steady (c : Nat) (h1 : 1 ≤ c) (h2 : c < 1000) :
    update_zero_center_state ⟨2048, 2048, 2048 * c, c⟩ 2048 =
      ⟨2048, 2048, 2048 * (c + 1), c + 1⟩ := by
  rw [update_zero_center_state_nonempty _ 2048 (by simp only []; omega)]
  simp only [min_self, max_self, ZeroCenterState.mk.injEq, true_and]
  constructor <;> omega

theorem average_steady (c : Nat) (h1 : 1 ≤ c) :
    zero_center_average ⟨2048, 2048, 2048 * c, c⟩ = 2048 := by
  unfold zero_center_average to_uint16
  have hc : ¬ c = 0 := by omega
  simp only [hc, if_false]
  rw [Nat.mul_div_cancel _ (by omega)]

theorem step_zc_start (c t : Nat) (h1 : 1 ≤ c) (h2 : c < 1000) :
    (loop (zc_state ⟨2048, 2048, 2048 * c, c⟩ 0) (tick_of 2048 2048 t)).1 =
      zc_state ⟨2048, 2048, 2048 * (c + 1), c + 1⟩ t := by
  rw [loop_zc_state, update_steady c h1 h2,
    zero_center_range_ok_single 2048 (c + 1) (by omega) _]
  simp

theorem step_zc_hold (c t0 t : Nat) (h1 : 1 ≤ c) (h2 : c < 1000) (h0 : t0 ≠ 0)
    (ht : u32_sub t t0 < 500) :
    (loop (zc_state ⟨2048, 2048, 2048 * c, c⟩ t0) (tick_of 2048 2048 t)).1 =
      zc_state ⟨2048, 2048, 2048 * (c + 1), c + 1⟩ t0 := by
  rw [loop_zc_state, update_steady c h1 h2,
    zero_center_range_ok_single 2048 (c + 1) (by omega) _]
  have hn : ¬ u32_sub t t0 ≥ kCalibrationHoldMs := by unfold kCalibrationHoldMs; omega
  simp only [if_true, h0, if_false, hn]

theorem step_zc_final (c t0 t : Nat) (h1 : 1 ≤ c) (h2 : c < 1000) (h0 : t0 ≠ 0)
    (ht : 500 ≤ u32_sub t t0) :
    (loop (zc_state ⟨2048, 2048, 2048 * c, c⟩ t0) (tick_of 2048 2048 t)).1 =
      ctl_state ⟨2048, 2048, 2048 * (c + 1), c + 1⟩ := by
  rw [loop_zc_state, update_steady c h1 h2,
    zero_center_range_ok_single 2048 (c + 1) (by omega) _, average_steady (c + 1) (by omega)]
  have hn : u32_sub t t0 ≥ kCalibrationHoldMs := by unfold kCalibrationHoldMs; omega
  simp only [if_true, h0, if_false, hn]
  rfl

theorem alternating_raw_le (k : Nat) : alternating_raw k ≤ 4095 := by
  unfold alternating_raw
  split_ifs <;> omega

theorem alternating_raw_far_from_rest (k : Nat) :
    alternating_raw k + 30 ≤ 2048 ∨ 2048 + 30 ≤ alternating_raw k := by
  unfold alternating_raw
  split_ifs <;> omega

theorem alternating_raw_far_from_previous (k : Nat) (h : 1 ≤ k) :
    alternating_raw (k - 1) + 30 ≤ alternating_raw k ∨
      alternating_raw k + 30 ≤ alternating_raw (k - 1) := by
  unfold alternating_raw
  split_ifs <;> omega

theorem scenario_tick_alternating (b n k : Nat) (h : k < n) :
    scenario_tick b n k =
      tick_of (alternating_raw k) (alternating_raw k) (b + 10 * (k + 1)) := by
  unfold scenario_tick
  simp only [h, if_true]

theorem scenario_tick_steady (b n k : Nat) (h : n ≤ k) :
    scenario_tick b n k = tick_of 2048 2048 (b + 10 * (k + 1)) := by
  unfold scenario_tick
  have hn : ¬ k < n := by omega
  simp only [hn, if_false]

theorem scenario_tick_any (b n k : Nat) :
    ∃ r : Nat, r ≤ 4095 ∧ scenario_tick b n k = tick_of r r (b + 10 * (k + 1)) := by
  by_cases h : k < n
  · exact ⟨alternating_raw k, alternating_raw_le k, scenario_tick_alternating b n k h⟩
  · exact ⟨2048, by omega, scenario_tick_steady b n k (by omega)⟩

/-- The branch of `scenario_state` for the ticks of the ZeroCenter phase and
later. -/
theorem scenario_state_late (b n k : Nat) (hk : 53 ≤ k) :
    scenario_state b n k =
      if n ≤ 52 then
        if k ≤ 102 then zc_state ⟨2048, 2048, 2048 * (k - 52), k - 52⟩ (b + 530)
        else ctl_state ⟨2048, 2048, 2048 * 51, 51⟩
      else if k = 53 then zc_state ⟨0, 0, 0, 1⟩ (b + 530)
      else if k ≤ n then
        zc_state ⟨alternating_raw (k - 1), alternating_raw (k - 1),
          alternating_raw (k - 1), 1⟩ 0
      else if k = n + 1 then zc_state ⟨2048, 2048, 2048, 1⟩ 0
      else if k ≤ n + 51 then
        zc_state ⟨2048, 2048, 2048 * (k - n), k - n⟩ (b + 10 * (n + 2))
      else ctl_state ⟨2048, 2048, 2048 * 52, 52⟩ := by
  have c0 : ¬ k = 0 := by omega
  have c1 : ¬ k = 1 := by omega
  have c2 : ¬ k ≤ 51 := by omega
  have c3 : ¬ k = 52 := by omega
  unfold scenario_state
  rw [if_neg c0, if_neg c1, if_neg c2, if_neg c3]

theorem scenario_state_fr (b n k : Nat) (h1 : 2 ≤ k) (h2 : k ≤ 51) :
    scenario_state b n k = fr_state (b + 20) := by
  have c0 : ¬ k = 0 := by omega
  have c1 : ¬ k = 1 := by omega
  unfold scenario_state
  rw [if_neg c0, if_neg c1, if_pos h2]

theorem scenario_state_52 (b n : Nat) :
    scenario_state b n 52 = zc_state ⟨65535, 0, 0, 0⟩ 0 := by
  unfold scenario_state
  simp

theorem scenario_state_short_hold (b n k : Nat) (hn : n ≤ 52) (h1 : 53 ≤ k) (h2 : k ≤ 102) :
    scenario_state b n k = zc_state ⟨2048, 2048, 2048 * (k - 52), k - 52⟩ (b + 530) := by
  rw [scenario_state_late b n k h1, if_pos hn, if_pos h2]

theorem scenario_state_short_control (b n k : Nat) (hn : n ≤ 52) (h1 : 103 ≤ k) :
    scenario_state b n k = ctl_state ⟨2048, 2048, 2048 * 51, 51⟩ := by
  have c : ¬ k ≤ 102 := by omega
  rw [scenario_state_late b n k (by omega), if_pos hn, if_neg c]

theorem scenario_state_53 (b n : Nat) (hn : 53 ≤ n) :
    scenario_state b n 53 = zc_state ⟨0, 0, 0, 1⟩ (b + 530) := by
  have c : ¬ n ≤ 52 := by omega
  rw [scenario_state_late b n 53 (le_refl _), if_neg c, if_pos rfl]

theorem scenario_state_alternating (b n k : Nat) (h1 : 54 ≤ k) (h2 : k ≤ n) :
    scenario_state b n k = zc_state ⟨alternating_raw (k - 1), alternating_raw (k - 1),
      alternating_raw (k - 1), 1⟩ 0 := by
  have c : ¬ n ≤ 52 := by omega
  have c53 : ¬ k = 53 := by omega
  rw [scenario_state_late b n k (by omega), if_neg c, if_neg c53, if_pos h2]

theorem scenario_state_first_steady (b n : Nat) (hn : 53 ≤ n) :
    scenario_state b n (n + 1) = zc_state ⟨2048, 2048, 2048, 1⟩ 0 := by
  have c : ¬ n ≤ 52 := by omega
  have c53 : ¬ n + 1 = 53 := by omega
  have cn : ¬ n + 1 ≤ n := by omega
  rw [scenario_state_late b n (n + 1) (by omega), if_neg c, if_neg c53, if_neg cn, if_pos rfl]

theorem scenario_state_hold (b n k : Nat) (hn : 53 ≤ n) (h1 : n + 2 ≤ k) (h2 : k ≤ n + 51) :
    scenario_state b n k =
      zc_state ⟨2048, 2048, 2048 * (k - n), k - n⟩ (b + 10 * (n + 2)) := by
  have c : ¬ n ≤ 52 := by omega
  have c53 : ¬ k = 53 := by omega
  have cn : ¬ k ≤ n := by omega
  have cn1 : ¬ k = n + 1 := by omega
  rw [scenario_state_late b n k (by omega), if_neg c, if_neg c53, if_neg cn, if_neg cn1,
    if_pos h2]

theorem scenario_state_control (b n k : Nat) (hn : 53 ≤ n) (h1 : n + 52 ≤ k) :
    scenario_state b n k = ctl_state ⟨2048, 2048, 2048 * 52, 52⟩ := by
  have c : ¬ n ≤ 52 := by omega
  have c53 : ¬ k = 53 := by omega
  have cn : ¬ k ≤ n := by omega
  have cn1 : ¬ k = n + 1 := by omega
  have cn51 : ¬ k ≤ n + 51 := by omega
  rw [scenario_state_late b n k (by omega), if_neg c, if_neg c53, if_neg cn, if_neg cn1,
    if_neg cn51]

theorem scenario_state_zero (b n : Nat) :
    scenario_state b n 0 = enter_calibration_mode initial_globals := by
  unfold scenario_state
  rw [if_pos rfl]

theorem scenario_state_one (b n : Nat) :
    scenario_state b n 1 =
      { fr_state 0 with
        left_calibration := ⟨0, 0, 2048, false⟩
        right_calibration := ⟨0, 0, 2048, false⟩ } := by
  unfold scenario_state
  simp

/-- FullRange part of the scenario: ticks 0 to 51. -/
theorem scenario_step_full_range (b n k : Nat) (hn : 50 ≤ n) (hk : k ≤ 51)
    (hclock : b + 10 * (k + 1) < 4294967296) :
    (loop (scenario_state b n k) (scenario_tick b n k)).1 = scenario_state b n (k + 1) := by
  by_cases k0 : k = 0
  · subst k0
    rw [scenario_state_zero, scenario_state_one, scenario_tick_alternating b n 0 (by omega)]
    exact step_fr_first _
  by_cases k1 : k = 1
  · subst k1
    rw [scenario_state_one, scenario_state_fr b n 2 (by omega) (by omega),
      scenario_tick_alternating b n 1 (by omega)]
    exact step_fr_second _
  obtain ⟨r, hr, htick⟩ := scenario_tick_any b n k
  rw [scenario_state_fr b n k (by omega) hk, htick]
  by_cases k51 : k = 51
  · subst k51
    rw [scenario_state_52]
    exact step_fr_advance _ r _ hr (by omega)
      (by rw [u32_sub_eq _ _ (by omega) (by omega)]; omega)
  · rw [scenario_state_fr b n (k + 1) (by omega) (by omega)]
    exact step_fr_hold _ r _ hr (by omega)
      (by rw [u32_sub_eq _ _ (by omega) (by omega)]; omega)

/-- ZeroCenter part of the scenario when the rest value starts before the
ZeroCenter phase (`n <= 52`). -/
theorem scenario_step_short (b n k : Nat) (hn : n ≤ 52) (hk : 52 ≤ k)
    (hclock : b + 10 * (k + 1) < 4294967296) :
    (loop (scenario_state b n k) (scenario_tick b n k)).1 = scenario_state b n (k + 1) := by
  rw [scenario_tick_steady b n k (by omega)]
  by_cases k52 : k = 52
  · subst k52
    rw [scenario_state_52, scenario_state_short_hold b n 53 hn (by omega) (by omega)]
    exact step_zc_seed 2048 _
  by_cases k101 : k ≤ 101
  · rw [scenario_state_short_hold b n k hn (by omega) (by omega),
      scenario_state_short_hold b n (k + 1) hn (by omega) (by omega)]
    have e : k + 1 - 52 = k - 52 + 1 := by omega
    rw [e]
    exact step_zc_hold (k - 52) _ _ (by omega) (by omega) (by omega)
      (by rw [u32_sub_eq _ _ (by omega) (by omega)]; omega)
  by_cases k102 : k = 102
  · subst k102
    rw [scenario_state_short_hold b n 102 hn (by omega) (by omega),
      scenario_state_short_control b n 103 hn (by omega)]
    exact step_zc_final 50 _ _ (by omega) (by omega) (by omega)
      (by rw [u32_sub_eq _ _ (by omega) (by omega)]; omega)
  · rw [scenario_state_short_control b n k hn (by omega),
      scenario_state_short_control b n (k + 1) hn (by omega)]
    exact loop_control _ _ rfl rfl

/-- ZeroCenter part of the scenario when the alternation runs into the
ZeroCenter phase (`n >= 53`). -/
theorem scenario_step_long (b n k : Nat) (hn : 53 ≤ n) (hk : 52 ≤ k)
    (hclock : b + 10 * (k + 1) < 4294967296) :
    (loop (scenario_state b n k) (scenario_tick b n k)).1 = scenario_state b n (k + 1) := by
  by_cases k52 : k = 52
  · subst k52
    rw [scenario_state_52, scenario_state_53 b n hn,
      scenario_tick_alternating b n 52 (by omega)]
    exact step_zc_seed 0 _
  by_cases k53 : k = 53
  · subst k53
    rw [scenario_state_53 b n hn]
    by_cases n53 : n = 53
    · subst n53
      rw [scenario_tick_steady b 53 53 (le_refl _),
        scenario_state_first_steady b 53 (le_refl _)]
      exact step_zc_unstable 0 2048 _ _ (by omega)
    · rw [scenario_tick_alternating b n 53 (by omega),
        scenario_state_alternating b n 54 (by omega) (by omega)]
      exact step_zc_unstable 0 4095 _ _ (by omega)
  by_cases kn : k < n
  · rw [scenario_state_alternating b n k (by omega) (by omega),
      scenario_state_alternating b n (k + 1) (by omega) (by omega),
      scenario_tick_alternating b n k kn]
    exact step_zc_unstable _ _ 0 _ (alternating_raw_far_from_previous k (by omega))
  by_cases keq : k = n
  · subst keq
    rw [scenario_state_alternating b k k (by omega) (le_refl _),
      scenario_state_first_steady b k hn, scenario_tick_steady b k k (le_refl _)]
    exact step_zc_unstable _ 2048 0 _ (alternating_raw_far_from_rest (k - 1))
  rw [scenario_tick_steady b n k (by omega)]
  by_cases k1 : k = n + 1
  · subst k1
    rw [scenario_state_first_steady b n hn,
      scenario_state_hold b n (n + 1 + 1) hn (by omega) (by omega)]
    have e : n + 1 + 1 - n = 1 + 1 := by omega
    have e2 : b + 10 * (n + 1 + 1) = b + 10 * (n + 2) := by omega
    rw [e, e2]
    exact step_zc_start 1 _ (by omega) (by omega)
  by_cases k50 : k ≤ n + 50
  · rw [scenario_state_hold b n k hn (by omega) (by omega),
      scenario_state_hold b n (k + 1) hn (by omega) (by omega)]
    have e : k + 1 - n = k - n + 1 := by omega
    rw [e]
    exact step_zc_hold (k - n) _ _ (by omega) (by omega) (by omega)
      (by rw [u32_sub_eq _ _ (by omega) (by omega)]; omega)
  by_cases k51 : k = n + 51
  · subst k51
    rw [scenario_state_hold b n (n + 51) hn (by omega) (by omega),
      scenario_state_control b n (n + 51 + 1) hn (by omega)]
    have e : n + 51 - n = 51 := by omega
    rw [e]
    exact step_zc_final 51 _ _ (by omega) (by omega) (by omega)
      (by rw [u32_sub_eq _ _ (by omega) (by omega)]; omega)
  · rw [scenario_state_control b n k hn (by omega),
      scenario_state_control b n (k + 1) hn (by omega)]
    exact loop_control _ _ rfl rfl

theorem scenario_step (b n k : Nat) (hn : 50 ≤ n) (hclock : b + 10 * (k + 1) < 4294967296) :
    (loop (scenario_state b n k) (scenario_tick b n k)).1 = scenario_state b n (k + 1) := by
  by_cases hk : k ≤ 51
  · exact scenario_step_full_range b n k hn hk hclock
  · by_cases hn53 : 53 ≤ n
    · exact scenario_step_long b n k hn53 (by omega) hclock
    · exact scenario_step_short b n k (by omega) (by omega) hclock

theorem run_append (s : CoreState) (xs ys : List TickInput) :
    run s (xs ++ ys) = run (run s xs) ys := by
  unfold run
  rw [List.foldl_append]

/-- The scenario is in `scenario_state b n k` after its first `k` ticks. -/
theorem scenario_run (b n : Nat) (hn : 50 ≤ n) :
    ∀ k : Nat, b + 10 * k < 4294967296 →
      run (enter_calibration_mode initial_globals)
        ((List.range k).map (scenario_tick b n)) = scenario_state b n k := by
  intro k
  induction k with
  | zero => intro _; rw [scenario_state_zero]; rfl
  | succ j ih =>
    intro hj
    rw [List.range_succ, List.map_append, run_append, ih (by omega)]
    exact scenario_step b n j hn (by omega)

theorem scenario_final_state (b n m : Nat) (hn : 50 ≤ n) (hm : 53 ≤ m)
    (hclock : b + 10 * (n + m) < 4294967296) :
    ∃ z : ZeroCenterState,
      run (enter_calibration_mode initial_globals) (scenario_inputs b n m) = ctl_state z := by
  unfold scenario_inputs
  rw [scenario_run b n hn (n + m) hclock]
  by_cases h : 53 ≤ n
  · exact ⟨_, scenario_state_control b n (n + m) h (by omega)⟩
  · exact ⟨_, scenario_state_short_control b n (n + m) (by omega) (by omega)⟩

theorem scenario_no_trigger (b n m : Nat) : no_trigger (scenario_inputs b n m) := by
  intro inp hinp
  unfold scenario_inputs at hinp
  obtain ⟨k, _, rfl⟩ := List.mem_map.mp hinp
  rfl

/-- C18: end-to-end scenario.  Starting from the initial calibration state,
feeding both axes the alternating raw sequence `0, 4095, 0, 4095, ...` on
10 ms ticks (the first at any clock reading `b + 10`) for at least 500 ms
(`n >= 50` ticks) and then the steady raw value 2048 (for `m >= 53` ticks, the
clock not wrapping), with no recalibration trigger, the machine is in mode
Control with, on both axes, `min == 0`, `max == 4095`, `center == 2048`,
`ready == true`; and for that calibration
`map_raw_to_scaled (2048, cal, 1000) == 0`,
`map_raw_to_scaled (4095, cal, 1000) == -1000` and
`map_raw_to_scaled (0, cal, 1000) == 1000`. -/
theorem C18_end_to_end_scenario (b n m : Nat) (hn : 50 ≤ n) (hm : 53 ≤ m)
    (hclock : b + 10 * (n + m) < 4294967296) :
    no_trigger (scenario_inputs b n m) ∧
    (run (enter_calibration_mode initial_globals) (scenario_inputs b n m)).control_mode =
      ControlMode.Control ∧
    (run (enter_calibration_mode initial_globals) (scenario_inputs b n m)).left_calibration =
      ⟨0, 4095, 2048, true⟩ ∧
    (run (enter_calibration_mode initial_globals) (scenario_inputs b n m)).right_calibration =
      ⟨0, 4095, 2048, true⟩ ∧
    map_raw_to_scaled 2048
      (run (enter_calibration_mode initial_globals) (scenario_inputs b n m)).left_calibration
      1000 = some 0 ∧
    map_raw_to_scaled 4095
      (run (enter_calibration_mode initial_globals) (scenario_inputs b n m)).left_calibration
      1000 = some (-1000) ∧
    map_raw_to_scaled 0
      (run (enter_calibration_mode initial_globals) (scenario_inputs b n m)).left_calibration
      1000 = some 1000 := by
  obtain ⟨z, hz⟩ := scenario_final_state b n m hn hm hclock
  rw [hz]
  have e : (ctl_state z).left_calibration = ⟨0, 4095, 2048, true⟩ := rfl
  rw [e]
  exact ⟨scenario_no_trigger b n m, rfl, rfl, rfl, by decide, by decide, by decide⟩

theorem C18_end_to_end_scenario_witness :
    (run (enter_calibration_mode initial_globals) (scenario_inputs 500 60 60)).control_mode =
      ControlMode.Control ∧
    (run (enter_calibration_mode initial_globals)
      (scenario_inputs 500 60 60)).left_calibration = ⟨0, 4095, 2048, true⟩ ∧
    (run (enter_calibration_mode initial_globals)
      (scenario_inputs 500 60 60)).right_calibration = ⟨0, 4095, 2048, true⟩ :=
  ⟨(C18_end_to_end_scenario 500 60 60 (by decide) (by decide) (by decide)).2.1,
    (C18_end_to_end_scenario 500 60 60 (by decide) (by decide) (by decide)).2.2.1,
    (C18_end_to_end_scenario 500 60 60 (by decide) (by decide) (by decide)).2.2.2.1⟩

end DDC
